import Mathlib

/-!
# Verification of `ctd2xray.cchdo`

A shallow embedding of `src/ctd2xray/cchdo.py` and proofs about it.

The program manipulates xarray datasets: labelled containers of
N-dimensional variables.  The embedding models

* numeric values as `Option ℚ` (`none` stands for IEEE NaN, or for any
  non-finite / undefined float result such as a division by zero);
* N-dimensional numpy arrays as a flat row-major value list together with
  an explicit shape;
* an xarray `DataArray` as dimensions, shape, flat data, attached
  per-dimension coordinate values, and attributes;
* an xarray `Dataset` as association lists of coordinate variables and
  data variables plus string attributes;
* Python exceptions as `Except String`; name lookup of a missing
  variable is a `KeyError`, mirroring `ds[name]` on a dataset that has
  no variable of that name.

`scipy.interpolate.interp1d` (linear kind, the default used by the
program) is modelled faithfully to its `_call_linear` path: the x values
are argsorted (`assume_sorted=False` is scipy's default), evaluation at
a point uses `searchsorted(..., side='left')` clipped to `[1, n-1]`, and
with `bounds_error=False` every out-of-range target yields the fill
value, which defaults to NaN (`none` here).
-/

/-- A float value: `some q` is the finite rational `q`, `none` models NaN
(and any other non-finite result, e.g. division by zero which in floats
yields ±inf and then contaminates like NaN does). -/
abbrev Val := Option ℚ

/-- Float addition; NaN propagates. -/
def vadd : Val → Val → Val
  | some a, some b => some (a + b)
  | _, _ => none

/-- Float subtraction; NaN propagates. -/
def vsub : Val → Val → Val
  | some a, some b => some (a - b)
  | _, _ => none

/-- Float multiplication; NaN propagates (`NaN * 0 = NaN` as in IEEE). -/
def vmul : Val → Val → Val
  | some a, some b => some (a * b)
  | _, _ => none

/-- Float division; NaN propagates and division by zero is non-finite. -/
def vdiv : Val → Val → Val
  | some a, some b => if b = 0 then none else some (a / b)
  | _, _ => none

/-- Float `<`: any comparison involving NaN is false, as in IEEE. -/
def vlt (a b : Val) : Bool :=
  match a, b with
  | some x, some y => decide (x < y)
  | _, _ => false

/-- Key order used when argsorting the x array: NaN sorts last, as in
numpy's sort. -/
def vleKey (a b : Val) : Bool :=
  match a, b with
  | some x, some y => decide (x ≤ y)
  | some _, none => true
  | none, some _ => false
  | none, none => true

/-- Product of a shape, i.e. the number of elements of the array. -/
def listProd : List Nat → Nat
  | [] => 1
  | s :: ss => s * listProd ss

/-- Row-major flat position of a multi-index in an array of the given
shape. -/
def flatIndex : List Nat → List Nat → Nat
  | _ :: ss, i :: is => i * listProd ss + flatIndex ss is
  | _, _ => 0

/-- Multi-index of a row-major flat position in an array of the given
shape. -/
def unflatten : List Nat → Nat → List Nat
  | [], _ => []
  | _ :: ss, p => p / listProd ss :: unflatten ss (p % listProd ss)

/-- Stable insertion of an (index, value) pair into a key-sorted list. -/
def insPair (p : Nat × Val) : List (Nat × Val) → List (Nat × Val)
  | [] => [p]
  | q :: qs => if vleKey q.2 p.2 then q :: insPair p qs else p :: q :: qs

/-- Stable insertion sort of (index, value) pairs by value. -/
def sortPairs : List (Nat × Val) → List (Nat × Val)
  | [] => []
  | p :: ps => insPair p (sortPairs ps)

/-- `numpy.argsort` of a value list: the permutation that sorts it. -/
def argsortIdx (xs : List Val) : List Nat :=
  (sortPairs xs.enum).map Prod.fst

/-- `numpy.searchsorted(xs, t, side='left')` for sorted `xs`: the number
of leading entries strictly below `t`. -/
def ssLeft (xs : List Val) (t : Val) : Nat :=
  (xs.takeWhile (fun x => vlt x t)).length

/-- One point of scipy's `_call_linear` on sorted nodes `xs` with values
`ys`: locate `t` by `searchsorted` with the index clipped to `[1, n-1]`,
then evaluate the secant line through the two bracketing nodes. -/
def interpPoint (xs ys : List Val) (t : Val) : Val :=
  let j := min (max (ssLeft xs t) 1) (xs.length - 1)
  let xlo := xs.getD (j - 1) none
  let xhi := xs.getD j none
  let ylo := ys.getD (j - 1) none
  let yhi := ys.getD j none
  let slope := vdiv (vsub yhi ylo) (vsub xhi xlo)
  vadd (vmul slope (vsub t xlo)) ylo

/-- Whether target `t` lies outside the range of the sorted nodes `xs`
(scipy's `_check_bounds`; NaN targets are not flagged). -/
def isOOB (xs : List Val) (t : Val) : Bool :=
  vlt t (xs.headD none) || vlt (xs.getLastD none) t

/-- Values of the interpolated array: the source array `data` of shape
`shape` is interpolated along `axis` (whose nodes, argsorted by `perm`
into `xs`, pair with the slices of `data`) at the `targets`; out-of-range
targets yield the NaN fill value.  Row-major layout throughout. -/
def interpData (xs : List Val) (perm : List Nat) (shape : List Nat)
    (data : List Val) (axis : Nat) (targets : List Val) : List Val :=
  let outShape := shape.set axis targets.length
  (List.range (listProd outShape)).map (fun p =>
    let idx := unflatten outShape p
    let t := targets.getD (idx.getD axis 0) none
    if isOOB xs t then none
    else interpPoint xs
      ((List.range xs.length).map (fun m =>
        data.getD (flatIndex shape (idx.set axis (perm.getD m 0))) none)) t)

/-- A modelled xarray `DataArray`: named dimensions, shape, row-major
data, per-dimension coordinate values, and attributes. -/
structure DataArray where
  dims : List String
  shape : List Nat
  data : List Val
  coords : List (String × List Val) := []
  attrs : List (String × String) := []
  deriving DecidableEq, Repr

/-- `ndim` of a `DataArray`. -/
def DataArray.ndim (a : DataArray) : Nat := a.dims.length

/-- Python `len()` of an array: the first entry of its shape; raises
`TypeError` on a 0-d array. -/
def DataArray.pylen (a : DataArray) : Except String Nat :=
  match a.shape with
  | [] => Except.error "TypeError: len() of unsized object"
  | n :: _ => Except.ok n

/-- A modelled xarray `Dataset`: coordinate variables, data variables
and attributes.  Variable names are unique across the two lists in any
dataset xarray can actually build. -/
structure Dataset where
  coords : List (String × DataArray) := []
  data_vars : List (String × DataArray) := []
  attrs : List (String × String) := []
  deriving DecidableEq, Repr

/-- Lookup in an association list by key (Python dict access). -/
def alookup : List (String × α) → String → Option α
  | [], _ => none
  | p :: ps, k => if p.1 = k then some p.2 else alookup ps k

/-- Replace the value at a key of an association list (no-op if the key
is absent). -/
def replaceAssoc (l : List (String × α)) (k : String) (v : α) :
    List (String × α) :=
  l.map (fun p => if p.1 = k then (k, v) else p)

/-- Whether an association list carries a key. -/
def hasKey (l : List (String × α)) (k : String) : Bool :=
  (alookup l k).isSome

/-- Set a key of an association list, replacing it if present and
appending it otherwise. -/
def setAssoc (l : List (String × α)) (k : String) (v : α) :
    List (String × α) :=
  if hasKey l k then replaceAssoc l k v else l ++ [(k, v)]

/-- Remove a key from an association list. -/
def removeKey (l : List (String × α)) (k : String) : List (String × α) :=
  l.filter (fun p => p.1 != k)

/-- All variables of a dataset, coordinates first. -/
def Dataset.varsList (ds : Dataset) : List (String × DataArray) :=
  ds.coords ++ ds.data_vars

/-- Append a name to a list if it is not there yet. -/
def insertNew (acc : List String) (d : String) : List String :=
  if acc.contains d then acc else acc ++ [d]

/-- `ds.dims` of a dataset: the dimension names of all its variables, in
first-occurrence order, without duplicates. -/
def Dataset.dimNames (ds : Dataset) : List String :=
  ds.varsList.foldl (fun acc p => p.2.dims.foldl insertNew acc) []

/-- The stored variable of the given name, searching data variables then
coordinates (names are unique in real datasets, so the order is moot). -/
def Dataset.getRaw (ds : Dataset) (name : String) : Option DataArray :=
  match alookup ds.data_vars name with
  | some a => some a
  | none => alookup ds.coords name

/-- Attach to a variable the dataset coordinates that live on its
dimensions, as xarray does when a variable is accessed through the
dataset. -/
def attachCoords (ds : Dataset) (a : DataArray) : DataArray :=
  { a with coords := ds.coords.filterMap (fun p =>
      if p.2.dims.all (fun d => a.dims.contains d) then some (p.1, p.2.data)
      else none) }

/-- `ds[name]`: the named variable with its coordinates attached;
`KeyError` if absent. -/
def Dataset.getVar (ds : Dataset) (name : String) : Except String DataArray :=
  match ds.getRaw name with
  | none => Except.error ("KeyError: " ++ name)
  | some a => Except.ok (attachCoords ds a)

/-- A dimension coordinate variable made from plain values, as created
when a new coordinate is merged into a dataset. -/
def mkDimCoord (name : String) (vals : List Val) : DataArray :=
  { dims := [name], shape := [vals.length], data := vals,
    coords := [(name, vals)], attrs := [] }

/-- `ds[name] = da`: store `da` under `name` (replacing an existing
coordinate or data variable, else appending a new data variable) and
merge the coordinates `da` carries into the dataset when they are new,
as xarray's setitem/update does. -/
def Dataset.setItem (ds : Dataset) (name : String) (da : DataArray) : Dataset :=
  let ds1 :=
    if hasKey ds.coords name then { ds with coords := replaceAssoc ds.coords name da }
    else { ds with data_vars := setAssoc ds.data_vars name da }
  da.coords.foldl (fun acc p =>
    if hasKey acc.coords p.1 || hasKey acc.data_vars p.1 then acc
    else { acc with coords := acc.coords ++ [(p.1, mkDimCoord p.1 p.2)] }) ds1

/-- `ds.drop(name)`: remove the named variable; error if it is absent,
as xarray's drop raises. -/
def Dataset.dropVar (ds : Dataset) (name : String) : Except String Dataset :=
  if hasKey ds.coords name || hasKey ds.data_vars name then
    Except.ok { coords := removeKey ds.coords name,
                data_vars := removeKey ds.data_vars name,
                attrs := ds.attrs }
  else Except.error ("ValueError: " ++ name ++ " not found in this dataset")

/-- `ds.update(other)` for the one-coordinate dataset built by
`rename_0d_coords`: the renamed variable replaces the old one, staying a
data variable if it was one and becoming/staying a coordinate otherwise
(the target coordinate `other` also carries is unchanged: it was read
off this very dataset). -/
def Dataset.updateCoord (ds : Dataset) (name : String) (da : DataArray) : Dataset :=
  if hasKey ds.data_vars name then { ds with data_vars := replaceAssoc ds.data_vars name da }
  else { ds with coords := setAssoc ds.coords name da }

/-- `DataArray.get_axis_num`: position of a dimension name. -/
def get_axis_num : List String → String → Nat
  | [], _ => 0
  | d :: rest, name => if d = name then 0 else get_axis_num rest name + 1

/-- Construction-time validation of `scipy.interpolate.interp1d` for
linear interpolation of `y` (shape `yshape`) along `axis` against the
1-d coordinate array `x`. -/
def interp1d_mk (x : DataArray) (yshape : List Nat) (axis : Nat) :
    Except String Unit :=
  if x.dims.length ≠ 1 then
    Except.error "ValueError: the x array must have exactly one dimension"
  else if yshape.getD axis 0 ≠ x.data.length then
    Except.error "ValueError: x and y arrays must be equal in lengths along the interpolation axis"
  else if x.data.length < 2 then
    Except.error "ValueError: x and y arrays must have at least 2 entries"
  else Except.ok ()

/-- Evaluation of the `interp1d` interpolant at the targets: argsort the
x nodes (scipy's default `assume_sorted=False`), check bounds when
`bounds_error` is set, and produce the linearly interpolated row-major
data with NaN fill at out-of-range targets otherwise. -/
def interp1d_call (xdata : List Val) (yshape : List Nat) (ydata : List Val)
    (axis : Nat) (bounds_error : Bool) (targets : List Val) :
    Except String (List Val) :=
  let perm := argsortIdx xdata
  let xs := perm.map (fun m => xdata.getD m none)
  if bounds_error && targets.any (fun t => isOOB xs t) then
    Except.error "ValueError: a value in x_new is out of the interpolation range"
  else Except.ok (interpData xs perm yshape ydata axis targets)

/-- One entry of the `coords` dict built by `interp_coordinate` for a
dimension name `d` of the interpolated variable: the target values for
the suffixed coordinate, and the variable's own coordinate values for
any other dimension (`KeyError` if that dimension has none). -/
def coordEntry (xnew_name : String) (interp_data : List Val)
    (ycoords : List (String × List Val)) (d : String) :
    Except String (String × List Val) :=
  if d = xnew_name then Except.ok (d, interp_data)
  else
    match alookup ycoords d with
    | some vals => Except.ok (d, vals)
    | none => Except.error ("KeyError: " ++ d)

/-- The `coords` dict built by `interp_coordinate`, one entry per (new)
dimension of the interpolated variable, in dimension order; the first
missing coordinate raises. -/
def coordsFor (xnew_name : String) (interp_data : List Val)
    (ycoords : List (String × List Val)) :
    List String → Except String (List (String × List Val))
  | [] => Except.ok []
  | d :: rest =>
    match coordEntry xnew_name interp_data ycoords d with
    | Except.error e => Except.error e
    | Except.ok p =>
      match coordsFor xnew_name interp_data ycoords rest with
      | Except.error e => Except.error e
      | Except.ok ps => Except.ok (p :: ps)

/-- The body of `interp_coordinate`'s loop for one data variable name:
skip it unless its dimensions contain the interpolation coordinate;
otherwise build the interpolant, rebuild dims and coords with the
suffixed coordinate (`KeyError` on a dimension with no coordinate),
evaluate, store the suffixed variable, and drop the original when
`drop_original` is set. -/
def interpStep (x : DataArray) (interp_coord xnew_name : String)
    (interp_data : List Val) (drop_original : Bool) (interp_suffix : String)
    (bounds_error : Bool) (ds : Dataset) (yname : String) :
    Except String Dataset :=
  match ds.getVar yname with
  | Except.error e => Except.error e
  | Except.ok y =>
    if interp_coord ∈ y.dims then
      let axis := get_axis_num y.dims interp_coord
      match interp1d_mk x y.shape axis with
      | Except.error e => Except.error e
      | Except.ok _ =>
        let dims2 := y.dims.set axis xnew_name
        match coordsFor xnew_name interp_data y.coords dims2 with
        | Except.error e => Except.error e
        | Except.ok coords2 =>
          match interp1d_call x.data y.shape y.data axis bounds_error
              interp_data with
          | Except.error e => Except.error e
          | Except.ok newData =>
            let ynew : DataArray :=
              { dims := dims2, shape := y.shape.set axis interp_data.length,
                data := newData, coords := coords2, attrs := [] }
            let ds2 := ds.setItem (yname ++ interp_suffix) ynew
            if drop_original then ds2.dropVar yname else Except.ok ds2
    else Except.ok ds

/-- The loop of `interp_coordinate` over the snapshot of data variable
names, threading the evolving dataset; a raised error aborts the loop. -/
def interpLoop (x : DataArray) (interp_coord xnew_name : String)
    (interp_data : List Val) (drop_original : Bool) (interp_suffix : String)
    (bounds_error : Bool) : Dataset → List String → Except String Dataset
  | ds, [] => Except.ok ds
  | ds, yname :: rest =>
    match interpStep x interp_coord xnew_name interp_data drop_original
        interp_suffix bounds_error ds yname with
    | Except.error e => Except.error e
    | Except.ok ds2 =>
      interpLoop x interp_coord xnew_name interp_data drop_original
        interp_suffix bounds_error ds2 rest

/-- `interp_coordinate(ds, interp_coord, interp_data, drop_original=True,
interp_suffix='_i', interp_kwargs=dict(bounds_error=False))`: interpolate
every data variable depending on `interp_coord` onto the target values,
naming results with the suffix, and drop the originals and the source
coordinate when `drop_original` is set. -/
def interp_coordinate (ds : Dataset) (interp_coord : String)
    (interp_data : List Val) (drop_original : Bool := true)
    (interp_suffix : String := "_i") (bounds_error : Bool := false) :
    Except String Dataset :=
  match ds.getVar interp_coord with
  | Except.error e => Except.error e
  | Except.ok x =>
    let xnew_name := interp_coord ++ interp_suffix
    let names := ds.data_vars.map Prod.fst
    match interpLoop x interp_coord xnew_name interp_data drop_original
        interp_suffix bounds_error ds names with
    | Except.error e => Except.error e
    | Except.ok ds2 =>
      if drop_original then ds2.dropVar interp_coord else Except.ok ds2

/-- The body of `rename_0d_coords`'s loop for one dimension name `d`:
look the dimension variable up; when it is one-dimensional and not the
target dimension and its `len` equals the target variable's `len`,
re-declare it over the target dimension (keeping values and attributes)
and update the dataset; otherwise leave the dataset alone. -/
def renameStep (new_dim : String) (ds : Dataset) (d : String) :
    Except String Dataset :=
  match ds.getVar d with
  | Except.error e => Except.error e
  | Except.ok v =>
    if v.ndim = 1 ∧ d ≠ new_dim then
      match v.pylen with
      | Except.error e => Except.error e
      | Except.ok lv =>
        match ds.getVar new_dim with
        | Except.error e => Except.error e
        | Except.ok tgt =>
          match tgt.pylen with
          | Except.error e => Except.error e
          | Except.ok lt =>
            if lv = lt then
              if tgt.ndim = 1 then
                Except.ok (ds.updateCoord d
                  { dims := [new_dim], shape := [lv], data := v.data,
                    coords := [(new_dim, tgt.data)], attrs := v.attrs })
              else Except.error "ValueError: coordinate must be one-dimensional"
            else Except.ok ds
    else Except.ok ds

/-- The loop of `rename_0d_coords` over the snapshot of dimension names. -/
def renameLoop (new_dim : String) : Dataset → List String → Except String Dataset
  | ds, [] => Except.ok ds
  | ds, d :: rest =>
    match renameStep new_dim ds d with
    | Except.error e => Except.error e
    | Except.ok ds2 => renameLoop new_dim ds2 rest

/-- `rename_0d_coords(ds, new_dim)`: re-index every one-dimensional
dimension variable of matching length onto `new_dim`. -/
def rename_0d_coords (ds : Dataset) (new_dim : String) :
    Except String Dataset :=
  renameLoop new_dim ds ds.dimNames

/-- `pandas.to_datetime(s, utc=True)`, modelled abstractly: pandas is an
external library, so the parsed UTC instant is represented by an opaque
injective numeric encoding of the attribute string; no claim depends on
the encoding. -/
def pd_to_datetime_utc (s : String) : ℚ :=
  s.foldl (fun a c => a * 1114112 + (c.toNat : ℚ)) 0

/-- `attribute_to_time_variable(ds, attr_name, variable_name='time',
variable_dim='time')`: parse the attribute into a one-element time array
and store it as `variable_name` over `variable_dim`.  When the two names
coincide the source constructs `xr.DataArray(time, dims=[coord_name])`,
and `coord_name` is not a name in scope there, so that branch raises
`NameError` instead of producing a dataset. -/
def attribute_to_time_variable (ds : Dataset) (attr_name : String)
    (variable_name : String := "time") (variable_dim : String := "time") :
    Except String Dataset :=
  match alookup ds.attrs attr_name with
  | none => Except.error ("KeyError: " ++ attr_name)
  | some s =>
    let time : List Val := [some (pd_to_datetime_utc s)]
    if variable_dim = variable_name then
      Except.error "NameError: name coord_name is not defined"
    else
      match ds.getVar variable_dim with
      | Except.error e => Except.error e
      | Except.ok tv =>
        if tv.ndim ≠ 1 then
          Except.error "ValueError: coordinate must be one-dimensional"
        else
          match tv.pylen with
          | Except.error e => Except.error e
          | Except.ok n =>
            if n ≠ 1 then
              Except.error "ValueError: conflicting sizes for dimension"
            else
              Except.ok (ds.setItem variable_name
                { dims := [variable_dim], shape := [1], data := time,
                  coords := [(variable_dim, tv.data)], attrs := [] })

/-- `_maybe_add_time_coord(ds, attr_name='Cast_start_UTC',
coord_name='time', get_dim_from='station')`: pass the dataset through
unchanged when `coord_name` is already a dimension; otherwise derive the
time coordinate over the single dimension of the reference variable
(assertion error when that variable is not one-dimensional). -/
def maybe_add_time_coord (ds : Dataset) (attr_name : String := "Cast_start_UTC")
    (coord_name : String := "time") (get_dim_from : String := "station") :
    Except String Dataset :=
  if coord_name ∈ ds.dimNames then Except.ok ds
  else
    match ds.getVar get_dim_from with
    | Except.error e => Except.error e
    | Except.ok v =>
      if v.dims.length = 1 then
        attribute_to_time_variable ds attr_name coord_name (v.dims.headD "")
      else Except.error "AssertionError"

/-- `compose(*functions)`: `functools.reduce(lambda f, g: lambda x:
f(g(x)), functions, lambda x: x)`, a left fold of two-sided composition
starting from the identity. -/
def compose {α : Type} (functions : List (α → α)) : α → α :=
  functions.foldl (fun f g => fun x => f (g x)) (fun x => x)

/-- Lift an exception-raising transform to a composable endomap of
computations: Python lets an exception propagate through the enclosing
calls, which is exactly `Except.bind`. -/
def liftT (f : Dataset → Except String Dataset) :
    Except String Dataset → Except String Dataset :=
  fun e => e.bind f

/-- The per-file preprocessing function built by
`open_cchdo_as_mfdataset` before it hands the files to
`xr.open_mfdataset`: `compose(interpfun, renamefun, timefun)` where
`interpfun` is `interp_coordinate` bound to the pressure coordinate and
target pressures, `renamefun` is `rename_0d_coords` bound to the
concatenation dimension, and `timefun` is `_maybe_add_time_coord`. -/
def open_cchdo_preprocess (target_pressure : List Val)
    (pressure_coord : String := "pressure") (concat_dim : String := "time") :
    Dataset → Except String Dataset :=
  let timefun := fun ds => maybe_add_time_coord ds
  let interpfun := fun ds => interp_coordinate ds pressure_coord target_pressure
  let renamefun := fun ds => rename_0d_coords ds concat_dim
  let ppfun := compose [liftT interpfun, liftT renamefun, liftT timefun]
  fun ds => ppfun (Except.ok ds)

/-! ## Concrete datasets used in the scenario proofs -/

/-- The spec scenario's pressure values `[0, 10, 20, 30]`. -/
def xsT : List Val := [some 0, some 10, some 20, some 30]

/-- The spec scenario's temperatures `[15, 14, 13, 12]`. -/
def ysT : List Val := [some 15, some 14, some 13, some 12]

/-- The spec scenario's target pressures `[5, 15, 25]`. -/
def tgtT : List Val := [some 5, some 15, some 25]

/-- The scenario's `pressure` coordinate variable. -/
def paC1 : DataArray := ⟨["pressure"], [4], xsT, [], []⟩

/-- The scenario's `temp` data variable. -/
def taC1 : DataArray := ⟨["pressure"], [4], ysT, [], []⟩

/-- The spec scenario dataset: pressure `[0,10,20,30]`, temp `[15,14,13,12]`. -/
def dsC1 : Dataset := ⟨[("pressure", paC1)], [("temp", taC1)], []⟩

/-- The scenario's `pressure` variable as accessed through the dataset. -/
def xAttC1 : DataArray := ⟨["pressure"], [4], xsT, [("pressure", xsT)], []⟩

/-- The interpolated temperatures of the scenario. -/
def newDataC1 : List Val := [some 14.5, some 13.5, some 12.5]

/-- The scenario's `pressure_i` coordinate variable after interpolation. -/
def piC1 : DataArray := ⟨["pressure_i"], [3], tgtT, [("pressure_i", tgtT)], []⟩

/-- The scenario's `temp_i` data variable after interpolation. -/
def tiC1 : DataArray := ⟨["pressure_i"], [3], newDataC1, [("pressure_i", tgtT)], []⟩

/-- The scenario dataset right after the loop body for `temp`, before the
source coordinate is dropped. -/
def dsMidC1 : Dataset :=
  ⟨[("pressure", paC1), ("pressure_i", piC1)], [("temp_i", tiC1)], []⟩

/-- The interpolated scenario dataset: `temp_i = [14.5, 13.5, 12.5]` on the
new coordinate `pressure_i = [5, 15, 25]`; `pressure` and `temp` are gone. -/
def dsC1i : Dataset := ⟨[("pressure_i", piC1)], [("temp_i", tiC1)], []⟩

/-- A one-point `station` coordinate. -/
def staC4 : DataArray := ⟨["station"], [1], [some 7], [], []⟩

/-- A one-point `time` coordinate. -/
def timC4 : DataArray := ⟨["time"], [1], [some 100], [], []⟩

/-- A one-point latitude coordinate on the `station` dimension: a
coordinate whose own name is not a dimension of the dataset. -/
def latC4 : DataArray := ⟨["station"], [1], [some 42], [], []⟩

/-- Dataset with dimension coordinates `station` and `time` and a
non-dimension coordinate `lat` on `station`. -/
def dsC4 : Dataset :=
  ⟨[("station", staC4), ("time", timC4), ("lat", latC4)], [], []⟩

/-- `station` re-indexed onto `time` by `rename_0d_coords`. -/
def staC4r : DataArray :=
  ⟨["time"], [1], [some 7], [("time", [some 100])], []⟩

/-- `dsC4` after `rename_0d_coords(..., new_dim='time')`: `station` was
re-indexed; `lat` was not touched. -/
def dsC4r : Dataset :=
  ⟨[("station", staC4r), ("time", timC4), ("lat", latC4)], [], []⟩

/-- Dataset with a `station` dimension coordinate and no `time` variable
at all. -/
def dsC5 : Dataset := ⟨[("station", staC4)], [], []⟩

/-- A data variable over `pressure` and `station` in a dataset that
carries no `station` coordinate. -/
def vC6 : DataArray :=
  ⟨["pressure", "station"], [4, 1], [some 1, some 2, some 3, some 4], [], []⟩

/-- Dataset whose only data variable depends on `pressure` and on a
second dimension `station` that has no coordinate variable. -/
def dsC6 : Dataset := ⟨[("pressure", paC1)], [("v", vC6)], []⟩

/-- A single out-of-range target pressure. -/
def tgtOOB : List Val := [some 99]

/-- `temp_i` after interpolating the scenario dataset to the single
out-of-range target: one NaN fill value. -/
def tiOOB : DataArray :=
  ⟨["pressure_i"], [1], [none], [("pressure_i", tgtOOB)], []⟩

/-- The `pressure_i` coordinate for the out-of-range run. -/
def piOOB : DataArray := ⟨["pressure_i"], [1], tgtOOB, [("pressure_i", tgtOOB)], []⟩

/-- The scenario dataset interpolated to the single out-of-range target. -/
def dsOOB : Dataset := ⟨[("pressure_i", piOOB)], [("temp_i", tiOOB)], []⟩

/-- Dataset that already has a `time` dimension, for the time-deriver
pass-through. -/
def dsC7 : Dataset := ⟨[("time", timC4)], [], [("Cast_start_UTC", "2016")]⟩

/-- Dataset without a `time` dimension but with a one-dimensional
`station` variable and a parseable cast-start attribute. -/
def dsC9 : Dataset := ⟨[("station", staC4)], [], [("Cast_start_UTC", "2016")]⟩

/-- The variable `temp` as accessed through the scenario dataset. -/
def yAttC1 : DataArray := ⟨["pressure"], [4], ysT, [("pressure", xsT)], []⟩

/-- The message of the `NameError` raised by the broken same-name branch
of `attribute_to_time_variable`. -/
def nameErrMsg : String := "NameError: name coord_name is not defined"

/-- The variable `station` as accessed through `dsC9`. -/
def staAttC9 : DataArray := ⟨["station"], [1], [some 7], [("station", [some 7])], []⟩

/-- A two-point `station` coordinate, longer than the `time` dimension. -/
def sta2C5 : DataArray := ⟨["station"], [2], [some 1, some 2], [], []⟩

/-- Dataset whose `station` dimension is longer than its `time`
dimension, so the renamer must skip `station`. -/
def dsC5w : Dataset := ⟨[("station", sta2C5), ("time", timC4)], [], []⟩

/-- The interpolated `DataArray` that `interp_coordinate` builds for a
variable `Y` (`ynew` in the source): dims and shape with the
interpolation axis replaced, the interpolated data, and the rebuilt
coords. -/
def ynewOf (x : DataArray) (c xn : String) (tgts : List Val)
    (Y : DataArray) (coords2 : List (String × List Val)) : DataArray :=
  ⟨Y.dims.set (get_axis_num Y.dims c) xn,
   Y.shape.set (get_axis_num Y.dims c) tgts.length,
   interpData ((argsortIdx x.data).map (fun m => x.data.getD m none))
     (argsortIdx x.data) Y.shape Y.data (get_axis_num Y.dims c) tgts,
   coords2, []⟩

/-- A one-variable profile dataset: coordinate `pressure` with values
`xs` and data variable `temp` with values `ys`, as in a single cast. -/
def profileDS (xs ys : List ℚ) : Dataset :=
  ⟨[("pressure", ⟨["pressure"], [xs.length], xs.map some, [], []⟩)],
   [("temp", ⟨["pressure"], [ys.length], ys.map some, [], []⟩)], []⟩

/-- The `pressure` coordinate of `profileDS` as `interp_coordinate`
reads it (its own coordinate attached). -/
def profileXAtt (xs : List ℚ) : DataArray :=
  ⟨["pressure"], [xs.length], xs.map some, [("pressure", xs.map some)], []⟩

/-- The `temp` variable of `profileDS` as `interp_coordinate` reads it
(the `pressure` coordinate attached). -/
def profileYAtt (xs ys : List ℚ) : DataArray :=
  ⟨["pressure"], [ys.length], ys.map some, [("pressure", xs.map some)], []⟩

/-- The `pressure_i` coordinate of `profileDS1` as the second run reads
it. -/
def profileX2Att (ts : List ℚ) : DataArray :=
  ⟨["pressure_i"], [(ts.map some).length], ts.map some,
   [("pressure_i", ts.map some)], []⟩

/-- The interpolated values of the first run on `profileDS`. -/
def profileData1 (xs ys ts : List ℚ) : List Val :=
  interpData
    ((argsortIdx (xs.map some)).map (fun m => (xs.map some).getD m none))
    (argsortIdx (xs.map some)) [ys.length] (ys.map some) 0 (ts.map some)

/-- The interpolated variable `temp_i` of the first run. -/
def profileDA1 (xs ys ts : List ℚ) : DataArray :=
  ⟨["pressure_i"], [(ts.map some).length], profileData1 xs ys ts,
   [("pressure_i", ts.map some)], []⟩

/-- The dataset produced by the first interpolation run on `profileDS`. -/
def profileDS1 (xs ys ts : List ℚ) : Dataset :=
  ⟨[("pressure_i", mkDimCoord "pressure_i" (ts.map some))],
   [("temp_i", profileDA1 xs ys ts)], []⟩

/-- The re-interpolated values of the second run, along `pressure_i`. -/
def profileData2 (xs ys ts : List ℚ) : List Val :=
  interpData
    ((argsortIdx (ts.map some)).map (fun m => (ts.map some).getD m none))
    (argsortIdx (ts.map some)) [(ts.map some).length]
    (profileData1 xs ys ts) 0 (ts.map some)

/-- The re-interpolated variable `temp_i_i` of the second run. -/
def profileDA2 (xs ys ts : List ℚ) : DataArray :=
  ⟨["pressure_i_i"], [(ts.map some).length], profileData2 xs ys ts,
   [("pressure_i_i", ts.map some)], []⟩

/-- The dataset produced by re-running the interpolation along
`pressure_i`. -/
def profileDS2 (xs ys ts : List ℚ) : Dataset :=
  ⟨[("pressure_i_i", mkDimCoord "pressure_i_i" (ts.map some))],
   [("temp_i_i", profileDA2 xs ys ts)], []⟩

/-! ## Evaluation lemmas for the concrete scenarios

Whatever does not touch rational arithmetic reduces in the kernel, so
those facts are by `rfl`; the interpolated values themselves are
computed by `norm_num`. -/

theorem idC1 : interpData xsT [0, 1, 2, 3] [4] ysT 0 tgtT = newDataC1 := by
  simp [interpData, interpPoint, ssLeft, isOOB, xsT, ysT, tgtT, newDataC1,
    vlt, vadd, vsub, vmul, vdiv, listProd, flatIndex, unflatten,
    List.range_succ]
  norm_num

theorem interpC1_eval :
    interp_coordinate dsC1 "pressure" tgtT = Except.ok dsC1i := by
  have h : interp_coordinate dsC1 "pressure" tgtT =
      Except.ok ⟨[("pressure_i", piC1)],
        [("temp_i", ⟨["pressure_i"], [3],
          interpData xsT [0, 1, 2, 3] [4] ysT 0 tgtT,
          [("pressure_i", tgtT)], []⟩)], []⟩ := rfl
  rw [h, idC1]
  rfl

theorem interpOOB_eval :
    interp_coordinate dsC1 "pressure" tgtOOB = Except.ok dsOOB := rfl

/-! ## Claim theorems -/

/-- C1: For a dataset with pressure coordinate `[0,10,20,30]` and data
variable `temp = [15,14,13,12]`, `interp_coordinate` with
`interp_coord='pressure'`, target values `[5,15,25]`, and default options
(`drop_original=True`, suffix `'_i'`) returns a dataset containing
`temp_i = [14.5, 13.5, 12.5]` indexed by a new coordinate
`pressure_i = [5,15,25]`, with the original `pressure` coordinate and
`temp` variable removed. -/
theorem C1_interp_scenario :
    interp_coordinate dsC1 "pressure" tgtT = Except.ok dsC1i ∧
    dsC1i = ⟨[("pressure_i", ⟨["pressure_i"], [3], [some 5, some 15, some 25],
        [("pressure_i", tgtT)], []⟩)],
      [("temp_i", ⟨["pressure_i"], [3], [some 14.5, some 13.5, some 12.5],
        [("pressure_i", tgtT)], []⟩)], []⟩ :=
  ⟨interpC1_eval, rfl⟩

/-- C2: `compose(f1, ..., fn)(x)` equals `f1(f2(...fn(x)...))`: the last
function of the sequence is applied first and outputs feed leftward. -/
theorem C2_compose_right_to_left {α : Type} (fs : List (α → α)) (x : α) :
    compose fs x = fs.foldr (fun f v => f v) x := by
  have aux : ∀ (fs : List (α → α)) (g : α → α) (x : α),
      (fs.foldl (fun f g => fun x => f (g x)) g) x =
        g (fs.foldr (fun f v => f v) x) := by
    intro fs
    induction fs with
    | nil => intro g x; rfl
    | cons f rest ih =>
      intro g x
      simpa using ih (fun x => g (f x)) x
  simpa [compose] using aux fs (fun x => x) x

/-- C3: the per-file preprocessing function built by
`open_cchdo_as_mfdataset` applies the time-attribute deriver first, then
the coordinate renamer bound to `concat_dim`, then the coordinate
interpolator bound to `pressure_coord` and the target pressures, in that
evaluation order. -/
theorem C3_preprocess_order (tp : List Val) (pc cd : String) (ds : Dataset) :
    open_cchdo_preprocess tp pc cd ds =
      ((maybe_add_time_coord ds "Cast_start_UTC" "time" "station").bind
          (fun d1 => rename_0d_coords d1 cd)).bind
        (fun d2 => interp_coordinate d2 pc tp true "_i" false) := rfl

/-- C4 counterexample: in `dsC4` the coordinate `lat` is one-dimensional,
its own dimension `station` differs from the target dimension `time`, and
its length `1` equals the length of `time`; yet `rename_0d_coords` leaves
it untouched (still on `station`), because the source only iterates over
dimension names, not over all coordinates. -/
theorem C4_counterexample :
    rename_0d_coords dsC4 "time" = Except.ok dsC4r ∧
    dsC4r.getRaw "lat" = some latC4 ∧
    latC4.dims = ["station"] ∧ ("station" : String) ≠ "time" ∧
    latC4.data.length = timC4.data.length := by
  refine ⟨rfl, rfl, rfl, ?_, rfl⟩
  decide

/-- C5 counterexample: on a dataset with a `station` dimension coordinate
but no `time` variable at all, `rename_0d_coords(..., new_dim='time')`
raises a lookup error instead of returning, because the length comparison
evaluates `len(ds['time'])`. -/
theorem C5_counterexample :
    rename_0d_coords dsC5 "time" = Except.error "KeyError: time" := rfl

/-- C6 counterexample: the target `99` lies outside the source range
`[0, 30]`, yet `interp_coordinate` on `dsC6` raises — its data variable
has a second dimension `station` with no coordinate variable, so the
coords rebuild hits a lookup error.  Out-of-range targets therefore do
not guarantee a non-raising call on every dataset. -/
theorem C6_counterexample :
    isOOB xsT (some 99) = true ∧
    interp_coordinate dsC6 "pressure" tgtOOB =
      Except.error "KeyError: station" :=
  ⟨rfl, rfl⟩

/-- C7: if the dataset already has a dimension named `coord_name`,
`_maybe_add_time_coord` returns its input unchanged (so every variable,
coordinate, dimension and attribute is unchanged). -/
theorem C7_time_deriver_noop (ds : Dataset) (a c g : String)
    (h : c ∈ ds.dimNames) :
    maybe_add_time_coord ds a c g = Except.ok ds := by
  simp [maybe_add_time_coord, h]

/-- Witness for C7 at a concrete dataset that already has a `time`
dimension. -/
theorem C7_witness :
    ("time" ∈ dsC7.dimNames) ∧
    maybe_add_time_coord dsC7 "Cast_start_UTC" "time" "station" =
      Except.ok dsC7 :=
  ⟨by decide, C7_time_deriver_noop dsC7 "Cast_start_UTC" "time" "station"
    (by decide)⟩

/-- C8 counterexample: running the interpolator a second time with the
same arguments on the already-interpolated scenario dataset does not
leave it unchanged — it raises a lookup error, because the original
`pressure` coordinate was dropped by the first run. -/
theorem C8_counterexample :
    (interp_coordinate dsC1 "pressure" tgtT).bind
      (fun d2 => interp_coordinate d2 "pressure" tgtT) =
    Except.error "KeyError: pressure" := by
  rw [interpC1_eval]
  rfl

/-! ## General lemmas about dataset dimensions -/

theorem mem_insertNew {acc : List String} {x d : String} :
    d ∈ insertNew acc x ↔ d ∈ acc ∨ d = x := by
  unfold insertNew
  by_cases h : x ∈ acc
  · rw [if_pos (List.elem_eq_true_of_mem h)]
    constructor
    · exact Or.inl
    · rintro (hd | rfl)
      · exact hd
      · exact h
  · rw [if_neg (fun hc => h (List.mem_of_elem_eq_true hc))]
    simp

theorem mem_foldl_insertNew {l : List String} {acc : List String} {d : String} :
    d ∈ l.foldl insertNew acc ↔ d ∈ acc ∨ d ∈ l := by
  induction l generalizing acc with
  | nil => simp
  | cons x xs ih =>
    simp only [List.foldl_cons, ih, mem_insertNew]
    constructor
    · rintro ((h | rfl) | h)
      · exact Or.inl h
      · exact Or.inr (List.mem_cons_self _ _)
      · exact Or.inr (List.mem_cons_of_mem _ h)
    · rintro (h | h)
      · exact Or.inl (Or.inl h)
      · rcases List.mem_cons.mp h with rfl | h
        · exact Or.inl (Or.inr rfl)
        · exact Or.inr h

theorem mem_outer_foldl_mono {L : List (String × DataArray)}
    {acc : List String} {d : String} (h : d ∈ acc) :
    d ∈ L.foldl (fun acc p => p.2.dims.foldl insertNew acc) acc := by
  induction L generalizing acc with
  | nil => exact h
  | cons q qs ih => exact ih (mem_foldl_insertNew.mpr (Or.inl h))

theorem mem_dims_foldl {L : List (String × DataArray)} {acc : List String}
    {n : String} {v : DataArray} {d : String}
    (hmem : (n, v) ∈ L) (hd : d ∈ v.dims) :
    d ∈ L.foldl (fun acc p => p.2.dims.foldl insertNew acc) acc := by
  induction L generalizing acc with
  | nil => cases hmem
  | cons p ps ih =>
    rcases List.mem_cons.mp hmem with rfl | hmem
    · rw [List.foldl_cons]
      exact mem_outer_foldl_mono (mem_foldl_insertNew.mpr (Or.inr hd))
    · exact ih hmem

theorem lookup_mem {l : List (String × α)} {k : String} {v : α}
    (h : alookup l k = some v) : (k, v) ∈ l := by
  induction l with
  | nil => cases h
  | cons p ps ih =>
    rw [alookup] at h
    by_cases hk : p.1 = k
    · rw [if_pos hk] at h
      cases h
      rw [← hk]
      exact List.mem_cons_self _ _
    · rw [if_neg hk] at h
      exact List.mem_cons_of_mem _ (ih h)

theorem getRaw_mem {ds : Dataset} {n : String} {v : DataArray}
    (h : ds.getRaw n = some v) : (n, v) ∈ ds.varsList := by
  unfold Dataset.getRaw at h
  cases hdv : alookup ds.data_vars n with
  | some a =>
    rw [hdv] at h
    cases h
    exact List.mem_append.mpr (Or.inr (lookup_mem hdv))
  | none =>
    rw [hdv] at h
    exact List.mem_append.mpr (Or.inl (lookup_mem h))

theorem dims_subset_dimNames {ds : Dataset} {n : String} {v : DataArray}
    (h : ds.getRaw n = some v) {d : String} (hd : d ∈ v.dims) :
    d ∈ ds.dimNames :=
  mem_dims_foldl (getRaw_mem h) hd

theorem getVar_dims {ds : Dataset} {n : String} {v : DataArray}
    (h : ds.getVar n = Except.ok v) :
    ∃ a, ds.getRaw n = some a ∧ v.dims = a.dims ∧ v.shape = a.shape ∧
      v.data = a.data ∧ v.attrs = a.attrs := by
  unfold Dataset.getVar at h
  cases hr : ds.getRaw n with
  | none => rw [hr] at h; cases h
  | some a =>
    rw [hr] at h
    cases h
    exact ⟨a, rfl, rfl, rfl, rfl, rfl⟩

/-- C9: when `variable_dim` equals `variable_name`,
`attribute_to_time_variable` never produces a dataset, and as soon as the
attribute lookup succeeds it fails precisely with the `NameError` of the
out-of-scope name `coord_name`; moreover no call made through
`_maybe_add_time_coord` can reach that branch: in the branch that calls
it, `coord_name` is not a dimension name, while the dimension passed as
`variable_dim` is one, so the two differ. -/
theorem C9_same_name_branch :
    (∀ (ds : Dataset) (a n : String),
      ¬ ∃ d, attribute_to_time_variable ds a n n = Except.ok d) ∧
    (∀ (ds : Dataset) (a n s : String), alookup ds.attrs a = some s →
      attribute_to_time_variable ds a n n = Except.error nameErrMsg) ∧
    (∀ (ds : Dataset) (g : String) (v : DataArray) (c : String),
      c ∉ ds.dimNames → ds.getVar g = Except.ok v → v.dims.length = 1 →
      v.dims.headD "" ≠ c) := by
  refine ⟨?_, ?_, ?_⟩
  · rintro ds a n ⟨d, h⟩
    unfold attribute_to_time_variable at h
    cases hl : alookup ds.attrs a with
    | none => simp [hl] at h
    | some s => simp [hl] at h
  · intro ds a n s hl
    unfold attribute_to_time_variable
    simp [hl, nameErrMsg]
  · intro ds g v c hc hg hlen heq
    obtain ⟨a, hr, hdims, -⟩ := getVar_dims hg
    have hmem : v.dims.headD "" ∈ v.dims := by
      cases hd : v.dims with
      | nil => rw [hd] at hlen; cases hlen
      | cons x xs => simp [hd]
    exact hc (heq ▸ dims_subset_dimNames hr (hdims ▸ hmem))

/-- Witness for C9: the same-name branch fails with the `NameError` on a
concrete dataset, and the concrete call path through the time deriver
passes a dimension different from `time`. -/
theorem C9_witness :
    attribute_to_time_variable dsC9 "Cast_start_UTC" "time" "time" =
      Except.error nameErrMsg ∧
    staAttC9.dims.headD "" ≠ "time" :=
  ⟨C9_same_name_branch.2.1 dsC9 "Cast_start_UTC" "time" "2016" rfl,
    C9_same_name_branch.2.2 dsC9 "station" staAttC9 "time" (by decide) rfl rfl⟩

/-! ## Association-list lemmas -/

theorem alookup_replaceAssoc_ne {l : List (String × α)} {k m : String} {v : α}
    (h : m ≠ k) : alookup (replaceAssoc l k v) m = alookup l m := by
  induction l with
  | nil => rfl
  | cons p ps ih =>
    simp only [replaceAssoc, List.map_cons]
    by_cases hp : p.1 = k
    · have hk : k ≠ m := fun he => h he.symm
      have hp1 : p.1 ≠ m := by rw [hp]; exact hk
      rw [if_pos hp, alookup, alookup, if_neg hk, if_neg hp1]
      exact ih
    · rw [if_neg hp, alookup, alookup]
      by_cases hm : p.1 = m
      · rw [if_pos hm, if_pos hm]
      · rw [if_neg hm, if_neg hm]
        exact ih

theorem alookup_replaceAssoc_self {l : List (String × α)} {k : String} {v : α}
    (h : hasKey l k = true) : alookup (replaceAssoc l k v) k = some v := by
  induction l with
  | nil => cases h
  | cons p ps ih =>
    simp only [replaceAssoc, List.map_cons]
    by_cases hp : p.1 = k
    · rw [if_pos hp, alookup, if_pos rfl]
    · rw [if_neg hp, alookup, if_neg hp]
      apply ih
      simp only [hasKey, alookup, if_neg hp] at h
      exact h

theorem alookup_append_of_none {l1 l2 : List (String × α)} {k : String}
    (h : alookup l1 k = none) : alookup (l1 ++ l2) k = alookup l2 k := by
  induction l1 with
  | nil => rfl
  | cons p ps ih =>
    rw [alookup] at h
    by_cases hp : p.1 = k
    · rw [if_pos hp] at h; cases h
    · rw [if_neg hp] at h
      rw [List.cons_append, alookup, if_neg hp]
      exact ih h

theorem alookup_append_of_some {l1 l2 : List (String × α)} {k : String} {v : α}
    (h : alookup l1 k = some v) : alookup (l1 ++ l2) k = some v := by
  induction l1 with
  | nil => cases h
  | cons p ps ih =>
    rw [alookup] at h
    rw [List.cons_append, alookup]
    by_cases hp : p.1 = k
    · rw [if_pos hp] at h
      rw [if_pos hp]
      exact h
    · rw [if_neg hp] at h
      rw [if_neg hp]
      exact ih h

theorem alookup_none_of_hasKey_false {l : List (String × α)} {k : String}
    (h : hasKey l k = false) : alookup l k = none := by
  unfold hasKey at h
  cases hc : alookup l k with
  | none => rfl
  | some w => rw [hc] at h; cases h

theorem alookup_setAssoc_self {l : List (String × α)} {k : String} {v : α} :
    alookup (setAssoc l k v) k = some v := by
  unfold setAssoc
  by_cases h : hasKey l k
  · rw [if_pos h]
    exact alookup_replaceAssoc_self h
  · rw [if_neg h]
    rw [alookup_append_of_none
      (alookup_none_of_hasKey_false (Bool.of_not_eq_true h))]
    simp [alookup]

theorem alookup_setAssoc_ne {l : List (String × α)} {k m : String} {v : α}
    (h : m ≠ k) : alookup (setAssoc l k v) m = alookup l m := by
  unfold setAssoc
  by_cases hk : hasKey l k
  · rw [if_pos hk]
    exact alookup_replaceAssoc_ne h
  · rw [if_neg hk]
    cases hm : alookup l m with
    | some w => exact alookup_append_of_some hm
    | none =>
      have hk : k ≠ m := fun he => h he.symm
      rw [alookup_append_of_none hm]
      simp [alookup, hk]

theorem alookup_removeKey_self {l : List (String × α)} {k : String} :
    alookup (removeKey l k) k = none := by
  induction l with
  | nil => rfl
  | cons p ps ih =>
    simp only [removeKey, List.filter_cons]
    by_cases hp : p.1 = k
    · have hb : (p.1 != k) = false := by simp [hp]
      rw [hb]
      exact ih
    · have hb : (p.1 != k) = true := by simp [hp]
      rw [hb]
      simp only [alookup, if_neg hp]
      exact ih

theorem alookup_removeKey_ne {l : List (String × α)} {k m : String}
    (h : m ≠ k) : alookup (removeKey l k) m = alookup l m := by
  induction l with
  | nil => rfl
  | cons p ps ih =>
    simp only [removeKey, List.filter_cons]
    by_cases hp : p.1 = k
    · have hb : (p.1 != k) = false := by simp [hp]
      have hp1 : p.1 ≠ m := by rw [hp]; exact fun he => h he.symm
      rw [hb]
      simp only [alookup, if_neg hp1]
      exact ih
    · have hb : (p.1 != k) = true := by simp [hp]
      rw [hb]
      simp only [alookup]
      by_cases hm : p.1 = m
      · rw [if_pos hm, if_pos hm]
      · rw [if_neg hm, if_neg hm]
        exact ih

/-! ## `getRaw` through the dataset operations -/

theorem getRaw_updateCoord_self (ds : Dataset) (e : String) (nv : DataArray) :
    (ds.updateCoord e nv).getRaw e = some nv := by
  unfold Dataset.updateCoord Dataset.getRaw
  by_cases h : hasKey ds.data_vars e
  · rw [if_pos h]
    simp only
    rw [alookup_replaceAssoc_self h]
  · rw [if_neg h]
    simp only
    rw [alookup_none_of_hasKey_false (Bool.of_not_eq_true h)]
    exact alookup_setAssoc_self

theorem getRaw_updateCoord_ne (ds : Dataset) (e : String) (nv : DataArray)
    {m : String} (hm : m ≠ e) :
    (ds.updateCoord e nv).getRaw m = ds.getRaw m := by
  unfold Dataset.updateCoord Dataset.getRaw
  by_cases h : hasKey ds.data_vars e
  · rw [if_pos h]
    simp only
    rw [alookup_replaceAssoc_ne hm]
  · rw [if_neg h]
    simp only
    rw [alookup_setAssoc_ne hm]

/-! ## `renameStep` lemmas -/

theorem attach_dims (ds : Dataset) (a : DataArray) :
    (attachCoords ds a).dims = a.dims := rfl

theorem attach_shape (ds : Dataset) (a : DataArray) :
    (attachCoords ds a).shape = a.shape := rfl

theorem attach_data (ds : Dataset) (a : DataArray) :
    (attachCoords ds a).data = a.data := rfl

theorem attach_attrs (ds : Dataset) (a : DataArray) :
    (attachCoords ds a).attrs = a.attrs := rfl

theorem attach_ndim (ds : Dataset) (a : DataArray) :
    (attachCoords ds a).ndim = a.dims.length := rfl

theorem attach_pylen (ds : Dataset) (a : DataArray) :
    (attachCoords ds a).pylen = a.pylen := rfl

theorem getVar_eq {ds : Dataset} {e : String} {v : DataArray}
    (h : ds.getRaw e = some v) :
    ds.getVar e = Except.ok (attachCoords ds v) := by
  unfold Dataset.getVar
  rw [h]

theorem renameStep_skip {nd : String} {ds : Dataset} {e : String}
    {v : DataArray} (hv : ds.getVar e = Except.ok v)
    (hc : ¬(v.ndim = 1 ∧ e ≠ nd)) :
    renameStep nd ds e = Except.ok ds := by
  simp only [renameStep, hv]
  rw [if_neg hc]

theorem renameStep_skip_len {nd : String} {ds : Dataset} {e : String}
    {v tgt : DataArray} {lv lt : Nat}
    (hv : ds.getVar e = Except.ok v) (h1 : v.ndim = 1) (hne : e ≠ nd)
    (hlv : v.pylen = Except.ok lv) (htv : ds.getVar nd = Except.ok tgt)
    (hlt : tgt.pylen = Except.ok lt) (hll : lv ≠ lt) :
    renameStep nd ds e = Except.ok ds := by
  simp only [renameStep, hv, hlv, htv, hlt]
  rw [if_pos ⟨h1, hne⟩, if_neg hll]

theorem renameStep_rename {nd : String} {ds : Dataset} {e : String}
    {v tgt : DataArray} {lv : Nat}
    (hv : ds.getVar e = Except.ok v) (h1 : v.ndim = 1) (hne : e ≠ nd)
    (hlv : v.pylen = Except.ok lv) (htv : ds.getVar nd = Except.ok tgt)
    (hlt : tgt.pylen = Except.ok lv) (ht1 : tgt.ndim = 1) :
    renameStep nd ds e = Except.ok (ds.updateCoord e
      ⟨[nd], [lv], v.data, [(nd, tgt.data)], v.attrs⟩) := by
  simp only [renameStep, hv, hlv, htv, hlt]
  rw [if_pos ⟨h1, hne⟩, if_pos trivial, if_pos ht1]

/-! ## Nodup of the dimension-name list -/

theorem nodup_insertNew {acc : List String} {d : String} (h : acc.Nodup) :
    (insertNew acc d).Nodup := by
  unfold insertNew
  by_cases hc : acc.contains d
  · rw [if_pos hc]; exact h
  · rw [if_neg hc]
    have hd : d ∉ acc := fun hm => hc (List.elem_eq_true_of_mem hm)
    exact List.Nodup.append h (List.nodup_singleton d)
      (by simpa [List.disjoint_singleton] using hd)

theorem nodup_foldl_insertNew {l acc : List String} (h : acc.Nodup) :
    (l.foldl insertNew acc).Nodup := by
  induction l generalizing acc with
  | nil => exact h
  | cons x xs ih => exact ih (nodup_insertNew h)

theorem nodup_outer_foldl {L : List (String × DataArray)} {acc : List String}
    (h : acc.Nodup) :
    (L.foldl (fun acc p => p.2.dims.foldl insertNew acc) acc).Nodup := by
  induction L generalizing acc with
  | nil => exact h
  | cons q qs ih => exact ih (nodup_foldl_insertNew h)

theorem dimNames_nodup (ds : Dataset) : ds.dimNames.Nodup :=
  nodup_outer_foldl List.nodup_nil

theorem pylen_eq {a : DataArray} {x : Nat} {r : List Nat}
    (h : a.shape = x :: r) : a.pylen = Except.ok x := by
  simp [DataArray.pylen, h]

/-! ## Characterization of the rename loop -/

theorem renameLoop_char {nd : String} {tgt : DataArray} {lt : Nat}
    (hts : tgt.shape = [lt]) (ht1 : tgt.dims.length = 1) :
    ∀ (L : List String) (dsc : Dataset), L.Nodup →
    (∀ e ∈ L, ∃ w, dsc.getRaw e = some w ∧ w.shape.length = w.dims.length) →
    dsc.getRaw nd = some tgt →
    ∃ ds', renameLoop nd dsc L = Except.ok ds' ∧
      (∀ d v, d ∈ L → dsc.getRaw d = some v →
        ((d ≠ nd ∧ v.dims.length = 1 ∧ v.shape = [lt] →
          ds'.getRaw d =
            some ⟨[nd], [lt], v.data, [(nd, tgt.data)], v.attrs⟩) ∧
         (¬(d ≠ nd ∧ v.dims.length = 1 ∧ v.shape = [lt]) →
          ds'.getRaw d = some v))) ∧
      (∀ m, m ∉ L → ds'.getRaw m = dsc.getRaw m) := by
  intro L
  induction L with
  | nil =>
    intro dsc _ _ _
    exact ⟨dsc, rfl, fun d v hd => absurd hd (List.not_mem_nil d),
      fun m _ => rfl⟩
  | cons e rest ih =>
    intro dsc hnd hpres htgt
    obtain ⟨w, hw, hwf⟩ := hpres e (List.mem_cons_self e rest)
    have hnd1 : e ∉ rest := (List.nodup_cons.mp hnd).1
    have hnd2 : rest.Nodup := (List.nodup_cons.mp hnd).2
    have hgv : dsc.getVar e = Except.ok (attachCoords dsc w) := getVar_eq hw
    have hgt : dsc.getVar nd = Except.ok (attachCoords dsc tgt) := getVar_eq htgt
    have htpl : (attachCoords dsc tgt).pylen = Except.ok lt := by
      rw [attach_pylen]
      exact pylen_eq hts
    by_cases hcond : e ≠ nd ∧ w.dims.length = 1 ∧ w.shape = [lt]
    · obtain ⟨hne, h1, hshape⟩ := hcond
      have hvpl : (attachCoords dsc w).pylen = Except.ok lt := by
        rw [attach_pylen]
        exact pylen_eq hshape
      have hstep0 := @renameStep_rename nd dsc e (attachCoords dsc w)
        (attachCoords dsc tgt) lt hgv h1 hne hvpl hgt htpl ht1
      have hstep : renameStep nd dsc e = Except.ok (dsc.updateCoord e
          ⟨[nd], [lt], w.data, [(nd, tgt.data)], w.attrs⟩) := hstep0
      have hpres1 : ∀ e2 ∈ rest, ∃ w2,
          (dsc.updateCoord e ⟨[nd], [lt], w.data, [(nd, tgt.data)],
            w.attrs⟩).getRaw e2 = some w2 ∧
          w2.shape.length = w2.dims.length := by
        intro e2 he2
        obtain ⟨w2, hw2, hwf2⟩ := hpres e2 (List.mem_cons_of_mem _ he2)
        refine ⟨w2, ?_, hwf2⟩
        rw [getRaw_updateCoord_ne _ _ _
          (fun hee => hnd1 (by rw [← hee]; exact he2))]
        exact hw2
      have htgt1 : (dsc.updateCoord e ⟨[nd], [lt], w.data, [(nd, tgt.data)],
          w.attrs⟩).getRaw nd = some tgt := by
        rw [getRaw_updateCoord_ne _ _ _ (fun hee => hne hee.symm)]
        exact htgt
      obtain ⟨ds', hloop, hout, hframe⟩ := ih _ hnd2 hpres1 htgt1
      refine ⟨ds', ?_, ?_, ?_⟩
      · simp only [renameLoop, hstep]
        exact hloop
      · intro d v hd hv
        rcases List.mem_cons.mp hd with rfl | hd2
        · have hveq : v = w := by
            rw [hw] at hv
            exact (Option.some.inj hv).symm
          subst hveq
          constructor
          · intro _
            rw [hframe _ hnd1, getRaw_updateCoord_self]
          · intro hcon
            exact absurd ⟨hne, h1, hshape⟩ hcon
        · have hd_ne : d ≠ e := fun hde => hnd1 (hde ▸ hd2)
          have hv1 : (dsc.updateCoord e ⟨[nd], [lt], w.data, [(nd, tgt.data)],
              w.attrs⟩).getRaw d = some v := by
            rw [getRaw_updateCoord_ne _ _ _ hd_ne]
            exact hv
          exact hout d v hd2 hv1
      · intro m hm
        have hm1 : m ∉ rest := fun h2 => hm (List.mem_cons_of_mem _ h2)
        have hm2 : m ≠ e := fun h2 => hm (h2 ▸ List.mem_cons_self e rest)
        rw [hframe m hm1, getRaw_updateCoord_ne _ _ _ hm2]
    · have hstep : renameStep nd dsc e = Except.ok dsc := by
        by_cases hne : e ≠ nd
        · by_cases h1 : w.dims.length = 1
          · have hsl : w.shape.length = 1 := by rw [hwf, h1]
            obtain ⟨x, hx⟩ : ∃ x, w.shape = [x] := List.length_eq_one.mp hsl
            have hxlt : x ≠ lt := by
              intro hxe
              exact hcond ⟨hne, h1, by rw [hx, hxe]⟩
            have hxpl : (attachCoords dsc w).pylen = Except.ok x := by
              rw [attach_pylen]
              exact pylen_eq hx
            exact @renameStep_skip_len nd dsc e (attachCoords dsc w)
              (attachCoords dsc tgt) x lt hgv h1 hne hxpl hgt htpl hxlt
          · exact renameStep_skip hgv (fun hc => h1 hc.1)
        · exact renameStep_skip hgv (fun hc => hne hc.2)
      obtain ⟨ds', hloop, hout, hframe⟩ := ih dsc hnd2
        (fun e2 he2 => hpres e2 (List.mem_cons_of_mem _ he2)) htgt
      refine ⟨ds', ?_, ?_, ?_⟩
      · simp only [renameLoop, hstep]
        exact hloop
      · intro d v hd hv
        rcases List.mem_cons.mp hd with rfl | hd2
        · have hveq : v = w := by
            rw [hw] at hv
            exact (Option.some.inj hv).symm
          subst hveq
          constructor
          · intro hcon
            exact absurd hcon hcond
          · intro _
            rw [hframe _ hnd1]
            exact hv
        · exact hout d v hd2 hv
      · intro m hm
        exact hframe m (fun h2 => hm (List.mem_cons_of_mem _ h2))

/-- C4 (amended): the renamer re-indexes exactly the dimension
coordinates — the variables accessed by a dimension name of the dataset.
Provided every dimension name resolves to a well-formed variable and the
target resolves to a one-dimensional variable of length `lt`, the call
succeeds, and every dimension variable that is one-dimensional, is not
the target, and has length `lt` is re-expressed over the target dimension
with its values (and attributes) kept in order.  A one-dimensional
coordinate whose name is not itself a dimension is not renamed, as
`C4_counterexample` shows. -/
theorem C4_rename_dimension_coords (ds : Dataset) (nd : String)
    (tgt : DataArray) (lt : Nat)
    (hall : ∀ e ∈ ds.dimNames, ∃ w, ds.getRaw e = some w ∧
      w.shape.length = w.dims.length)
    (htgt : ds.getRaw nd = some tgt) (ht1 : tgt.dims.length = 1)
    (hts : tgt.shape = [lt]) :
    ∃ ds', rename_0d_coords ds nd = Except.ok ds' ∧
      ∀ d v, d ∈ ds.dimNames → ds.getRaw d = some v → d ≠ nd →
        v.dims.length = 1 → v.shape = [lt] →
        ds'.getRaw d = some ⟨[nd], [lt], v.data, [(nd, tgt.data)], v.attrs⟩ := by
  obtain ⟨ds', hloop, hout, -⟩ :=
    renameLoop_char hts ht1 ds.dimNames ds (dimNames_nodup ds) hall htgt
  exact ⟨ds', hloop,
    fun d v hd hv hne h1 hs => (hout d v hd hv).1 ⟨hne, h1, hs⟩⟩

/-- Witness for the amended C4 on `dsC4`: the `station` dimension
coordinate ends up re-indexed onto `time` with its values kept. -/
theorem C4_witness : dsC4r.getRaw "station" = some staC4r := by
  have hall : ∀ e ∈ dsC4.dimNames, ∃ w, dsC4.getRaw e = some w ∧
      w.shape.length = w.dims.length := by
    intro e he
    rw [show dsC4.dimNames = ["station", "time"] from rfl] at he
    rcases List.mem_cons.mp he with rfl | he2
    · exact ⟨staC4, rfl, rfl⟩
    rcases List.mem_cons.mp he2 with rfl | he3
    · exact ⟨timC4, rfl, rfl⟩
    · cases he3
  obtain ⟨ds', h1, h2⟩ :=
    C4_rename_dimension_coords dsC4 "time" timC4 1 hall rfl rfl rfl
  rw [show rename_0d_coords dsC4 "time" = Except.ok dsC4r from rfl] at h1
  injection h1 with h1e
  have h3 := h2 "station" staC4 (by decide) rfl (by decide) rfl rfl
  rw [← h1e] at h3
  exact h3

/-- C5 (amended): the renamer raises no error provided every dimension
name of the dataset resolves to a well-formed variable and the target
name resolves to a one-dimensional variable; and every dimension
coordinate whose length differs from the target variable's length is
skipped: it is left unmodified (hence still queryable under its original
dimension).  Without those provisos the call can raise, as
`C5_counterexample` shows. -/
theorem C5_rename_total_and_skip (ds : Dataset) (nd : String)
    (tgt : DataArray) (lt : Nat)
    (hall : ∀ e ∈ ds.dimNames, ∃ w, ds.getRaw e = some w ∧
      w.shape.length = w.dims.length)
    (htgt : ds.getRaw nd = some tgt) (ht1 : tgt.dims.length = 1)
    (hts : tgt.shape = [lt]) :
    ∃ ds', rename_0d_coords ds nd = Except.ok ds' ∧
      ∀ d v, d ∈ ds.dimNames → ds.getRaw d = some v → v.dims.length = 1 →
        d ≠ nd → v.pylen ≠ Except.ok lt →
        ds'.getRaw d = some v := by
  obtain ⟨ds', hloop, hout, -⟩ :=
    renameLoop_char hts ht1 ds.dimNames ds (dimNames_nodup ds) hall htgt
  refine ⟨ds', hloop, fun d v hd hv h1 hne hpl => (hout d v hd hv).2 ?_⟩
  rintro ⟨-, -, hsh⟩
  exact hpl (pylen_eq hsh)

/-- Witness for the amended C5 on `dsC5w`: the two-point `station`
coordinate does not match the one-point `time` length, so it is left
exactly as it was while the call returns normally. -/
theorem C5_witness : dsC5w.getRaw "station" = some sta2C5 := by
  have hall : ∀ e ∈ dsC5w.dimNames, ∃ w, dsC5w.getRaw e = some w ∧
      w.shape.length = w.dims.length := by
    intro e he
    rw [show dsC5w.dimNames = ["station", "time"] from rfl] at he
    rcases List.mem_cons.mp he with rfl | he2
    · exact ⟨sta2C5, rfl, rfl⟩
    rcases List.mem_cons.mp he2 with rfl | he3
    · exact ⟨timC4, rfl, rfl⟩
    · cases he3
  obtain ⟨ds', h1, h2⟩ :=
    C5_rename_total_and_skip dsC5w "time" timC4 1 hall rfl rfl rfl
  rw [show rename_0d_coords dsC5w "time" = Except.ok dsC5w from rfl] at h1
  injection h1 with h1e
  have h3 := h2 "station" sta2C5 (by decide) rfl rfl (by decide)
    (by
      intro h
      rw [show sta2C5.pylen = Except.ok 2 from rfl] at h
      injection h with h4
      exact absurd h4 (by decide))
  rw [← h1e] at h3
  exact h3

/-! ## String append lemmas -/

theorem str_append_cancel {a b t : String} (h : a ++ t = b ++ t) : a = b := by
  apply String.ext
  have hd := congrArg String.data h
  rw [String.data_append, String.data_append] at hd
  exact List.append_cancel_right hd

theorem str_append_ne {a b t : String} (h : a ≠ b) : a ++ t ≠ b ++ t :=
  fun he => h (str_append_cancel he)

theorem str_append_ne_self {s t : String} (ht : t ≠ "") : s ++ t ≠ s := by
  intro h
  have hl := congrArg String.length h
  rw [String.length_append] at hl
  have h0 : t.length = 0 := by omega
  exact ht (String.ext (List.eq_nil_of_length_eq_zero h0))

/-! ## `setItem` and `dropVar` lemmas -/

theorem mergeFold_data_vars (l : List (String × List Val)) (acc : Dataset) :
    (l.foldl (fun acc p =>
      if hasKey acc.coords p.1 || hasKey acc.data_vars p.1 then acc
      else { acc with coords := acc.coords ++ [(p.1, mkDimCoord p.1 p.2)] })
      acc).data_vars = acc.data_vars := by
  induction l generalizing acc with
  | nil => rfl
  | cons q qs ih =>
    rw [List.foldl_cons, ih]
    by_cases h : hasKey acc.coords q.1 || hasKey acc.data_vars q.1
    · rw [if_pos h]
    · rw [if_neg h]

theorem mergeFold_getRaw_pres {m : String} {w : DataArray}
    (l : List (String × List Val)) :
    ∀ (acc : Dataset), acc.getRaw m = some w →
    (l.foldl (fun acc p =>
      if hasKey acc.coords p.1 || hasKey acc.data_vars p.1 then acc
      else { acc with coords := acc.coords ++ [(p.1, mkDimCoord p.1 p.2)] })
      acc).getRaw m = some w := by
  induction l with
  | nil => intro acc h; exact h
  | cons q qs ih =>
    intro acc h
    rw [List.foldl_cons]
    apply ih
    by_cases hk : hasKey acc.coords q.1 || hasKey acc.data_vars q.1
    · rw [if_pos hk]; exact h
    · rw [if_neg hk]
      simp only [Dataset.getRaw] at h ⊢
      cases hdv : alookup acc.data_vars m with
      | some a => simp only [hdv] at h ⊢; exact h
      | none =>
        simp only [hdv] at h ⊢
        exact alookup_append_of_some h

theorem getRaw_setItem_pres {ds : Dataset} {name : String} {da : DataArray}
    {m : String} {w : DataArray} (hm : ds.getRaw m = some w)
    (hne : m ≠ name) : (ds.setItem name da).getRaw m = some w := by
  unfold Dataset.setItem
  apply mergeFold_getRaw_pres
  by_cases hck : hasKey ds.coords name
  · rw [if_pos hck]
    simp only [Dataset.getRaw] at hm ⊢
    cases hdv : alookup ds.data_vars m with
    | some a => simp only [hdv] at hm ⊢; exact hm
    | none =>
      simp only [hdv] at hm ⊢
      rw [alookup_replaceAssoc_ne hne]
      exact hm
  · rw [if_neg hck]
    simp only [Dataset.getRaw] at hm ⊢
    rw [alookup_setAssoc_ne hne]
    cases hdv : alookup ds.data_vars m with
    | some a => simp only [hdv] at hm ⊢; exact hm
    | none => simp only [hdv] at hm ⊢; exact hm

theorem getRaw_setItem_fresh {ds : Dataset} {name : String} {da : DataArray}
    (hco : hasKey ds.coords name = false)
    (hdv : hasKey ds.data_vars name = false) :
    alookup (ds.setItem name da).data_vars name = some da := by
  unfold Dataset.setItem
  rw [if_neg (by simp [hco])]
  rw [mergeFold_data_vars]
  exact alookup_setAssoc_self

theorem setItem_data_vars {ds : Dataset} {name : String} {da : DataArray}
    (hco : hasKey ds.coords name = false) :
    (ds.setItem name da).data_vars = setAssoc ds.data_vars name da := by
  unfold Dataset.setItem
  rw [if_neg (by simp [hco])]
  exact mergeFold_data_vars _ _

theorem getRaw_some_hasKey {ds : Dataset} {name : String} {w : DataArray}
    (h : ds.getRaw name = some w) :
    (hasKey ds.coords name || hasKey ds.data_vars name) = true := by
  simp only [Dataset.getRaw] at h
  cases hdv : alookup ds.data_vars name with
  | some a => simp [hasKey, hdv]
  | none =>
    simp only [hdv] at h
    simp [hasKey, h]

theorem dropVar_eq {ds : Dataset} {name : String} {w : DataArray}
    (h : ds.getRaw name = some w) :
    ds.dropVar name = Except.ok ⟨removeKey ds.coords name,
      removeKey ds.data_vars name, ds.attrs⟩ := by
  unfold Dataset.dropVar
  rw [if_pos (getRaw_some_hasKey h)]

theorem getRaw_removeBoth_ne {ds : Dataset} {m name : String}
    (hne : m ≠ name) :
    (Dataset.mk (removeKey ds.coords name) (removeKey ds.data_vars name)
      ds.attrs).getRaw m = ds.getRaw m := by
  simp only [Dataset.getRaw]
  rw [alookup_removeKey_ne hne, alookup_removeKey_ne hne]

/-! ## `interpStep` characterization -/

theorem interpStep_skip {x : DataArray} {c xn : String} {tgts : List Val}
    {dr : Bool} {sfx : String} {be : Bool} {ds : Dataset} {yname : String}
    {y : DataArray} (hv : ds.getVar yname = Except.ok y) (hc : c ∉ y.dims) :
    interpStep x c xn tgts dr sfx be ds yname = Except.ok ds := by
  simp only [interpStep, hv]
  rw [if_neg hc]

theorem interp1d_mk_ok {x : DataArray} {ys : List Nat} {axis : Nat}
    (h1 : x.dims.length = 1) (h2 : ys.getD axis 0 = x.data.length)
    (h3 : 2 ≤ x.data.length) :
    interp1d_mk x ys axis = Except.ok () := by
  unfold interp1d_mk
  rw [if_neg (fun hne => hne h1), if_neg (fun hne => hne h2),
    if_neg (Nat.not_lt.mpr h3)]

theorem interp1d_call_false {xd : List Val} {ys : List Nat} {yd : List Val}
    {axis : Nat} {tg : List Val} :
    interp1d_call xd ys yd axis false tg =
      Except.ok (interpData ((argsortIdx xd).map (fun m => xd.getD m none))
        (argsortIdx xd) ys yd axis tg) := by
  simp [interp1d_call]

theorem interpStep_affected {x : DataArray} {c xn : String} {tgts : List Val}
    {sfx : String} {ds : Dataset} {yname : String} {y : DataArray}
    {coords2 : List (String × List Val)}
    (hv : ds.getVar yname = Except.ok y) (hc : c ∈ y.dims)
    (h1 : x.dims.length = 1)
    (h2 : y.shape.getD (get_axis_num y.dims c) 0 = x.data.length)
    (h3 : 2 ≤ x.data.length)
    (hco : coordsFor xn tgts y.coords
      (y.dims.set (get_axis_num y.dims c) xn) = Except.ok coords2) :
    interpStep x c xn tgts true sfx false ds yname =
      (ds.setItem (yname ++ sfx)
        ⟨y.dims.set (get_axis_num y.dims c) xn,
         y.shape.set (get_axis_num y.dims c) tgts.length,
         interpData ((argsortIdx x.data).map (fun m => x.data.getD m none))
           (argsortIdx x.data) y.shape y.data (get_axis_num y.dims c) tgts,
         coords2, []⟩).dropVar yname := by
  simp only [interpStep, hv]
  rw [if_pos hc]
  simp only [interp1d_mk_ok h1 h2 h3, hco, interp1d_call_false]
  rw [if_pos trivial]

/-! ## `interpLoop` lemmas -/

theorem interpLoop_cons_ok {x : DataArray} {c xn : String} {tgts : List Val}
    {sfx : String} {ds ds1 : Dataset} {yname : String} {rest : List String}
    (hstep : interpStep x c xn tgts true sfx false ds yname =
      Except.ok ds1) :
    interpLoop x c xn tgts true sfx false ds (yname :: rest) =
      interpLoop x c xn tgts true sfx false ds1 rest := by
  simp only [interpLoop, hstep]

theorem interpLoop_cons_error {x : DataArray} {c xn : String}
    {tgts : List Val} {sfx : String} {ds : Dataset} {yname : String}
    {rest : List String} {e : String}
    (hstep : interpStep x c xn tgts true sfx false ds yname =
      Except.error e) :
    interpLoop x c xn tgts true sfx false ds (yname :: rest) =
      Except.error e := by
  simp only [interpLoop, hstep]

theorem interpLoop_skip_prefix {x : DataArray} {c xn : String}
    {tgts : List Val} {sfx : String} {ds : Dataset} {rest : List String}
    (pre : List String)
    (hpre : ∀ w ∈ pre, ∃ yw, ds.getVar w = Except.ok yw ∧ c ∉ yw.dims) :
    interpLoop x c xn tgts true sfx false ds (pre ++ rest) =
      interpLoop x c xn tgts true sfx false ds rest := by
  induction pre with
  | nil => rfl
  | cons w ws ih =>
    obtain ⟨yw, hyw, hcw⟩ := hpre w (List.mem_cons_self w ws)
    rw [List.cons_append,
      interpLoop_cons_ok (interpStep_skip hyw hcw)]
    exact ih (fun w2 h2 => hpre w2 (List.mem_cons_of_mem _ h2))

/-! ## `coordsFor` error characterization -/

theorem coordEntry_xn {xn : String} {tgts : List Val}
    {yc : List (String × List Val)} :
    coordEntry xn tgts yc xn = Except.ok (xn, tgts) := by
  simp [coordEntry]

theorem coordEntry_found {xn : String} {tgts : List Val}
    {yc : List (String × List Val)} {d : String} {vals : List Val}
    (hd : d ≠ xn) (h : alookup yc d = some vals) :
    coordEntry xn tgts yc d = Except.ok (d, vals) := by
  simp only [coordEntry]
  rw [if_neg hd, h]

theorem coordEntry_missing {xn : String} {tgts : List Val}
    {yc : List (String × List Val)} {d : String}
    (hd : d ≠ xn) (h : alookup yc d = none) :
    coordEntry xn tgts yc d = Except.error ("KeyError: " ++ d) := by
  simp only [coordEntry]
  rw [if_neg hd, h]

theorem coordsFor_error {xn : String} {tgts : List Val}
    {yc : List (String × List Val)} {pre2 : List String} {d : String}
    {post2 : List String}
    (hpre2 : ∀ e ∈ pre2, e = xn ∨ (alookup yc e).isSome = true)
    (hd : d ≠ xn) (hmiss : alookup yc d = none) :
    coordsFor xn tgts yc (pre2 ++ d :: post2) =
      Except.error ("KeyError: " ++ d) := by
  induction pre2 with
  | nil =>
    rw [List.nil_append]
    simp only [coordsFor, coordEntry_missing hd hmiss]
  | cons e es ih =>
    have hee : ∃ p, coordEntry xn tgts yc e = Except.ok p := by
      by_cases hx : e = xn
      · exact ⟨(xn, tgts), by rw [hx]; exact coordEntry_xn⟩
      · rcases hpre2 e (List.mem_cons_self e es) with heq | hsome
        · exact absurd heq hx
        · obtain ⟨vals, hvals⟩ := Option.isSome_iff_exists.mp hsome
          exact ⟨(e, vals), coordEntry_found hx hvals⟩
    obtain ⟨p, hp⟩ := hee
    rw [List.cons_append]
    simp only [coordsFor, hp,
      ih (fun e2 he2 => hpre2 e2 (List.mem_cons_of_mem _ he2))]

/-- C10: every non-interpolated dimension of a variable that depends on
the source coordinate must carry a coordinate: when the first affected
data variable (every earlier one does not depend on the coordinate) has
a dimension `d` with no entry in its coordinates — the first such after
the interpolation axis is rebuilt — the call fails with `KeyError: d`
instead of passing the variable through. -/
theorem C10_missing_coord_error (ds : Dataset) (c sfx d : String)
    (tgts : List Val) (pre post pre2 post2 : List String)
    (v : String) (y xA : DataArray)
    (hx : ds.getRaw c = some xA)
    (hnames : ds.data_vars.map Prod.fst = pre ++ v :: post)
    (hpre : ∀ w ∈ pre, ∃ yw, ds.getVar w = Except.ok yw ∧ c ∉ yw.dims)
    (hv : ds.getRaw v = some y)
    (hc : c ∈ y.dims)
    (hx1 : xA.dims.length = 1)
    (hsh : y.shape.getD (get_axis_num y.dims c) 0 = xA.data.length)
    (hn2 : 2 ≤ xA.data.length)
    (hdims2 : y.dims.set (get_axis_num y.dims c) (c ++ sfx) =
      pre2 ++ d :: post2)
    (hd : d ≠ c ++ sfx)
    (hmiss : alookup (attachCoords ds y).coords d = none)
    (hpre2 : ∀ e ∈ pre2, e = c ++ sfx ∨
      (alookup (attachCoords ds y).coords e).isSome = true) :
    interp_coordinate ds c tgts true sfx false =
      Except.error ("KeyError: " ++ d) := by
  have hgx : ds.getVar c = Except.ok (attachCoords ds xA) := getVar_eq hx
  have hgy : ds.getVar v = Except.ok (attachCoords ds y) := getVar_eq hv
  have hstep : interpStep (attachCoords ds xA) c (c ++ sfx) tgts true sfx
      false ds v = Except.error ("KeyError: " ++ d) := by
    simp only [interpStep, hgy]
    rw [if_pos (show c ∈ (attachCoords ds y).dims from hc)]
    rw [@interp1d_mk_ok (attachCoords ds xA) (attachCoords ds y).shape
      (get_axis_num (attachCoords ds y).dims c)
      (show (attachCoords ds xA).dims.length = 1 from hx1)
      (show (attachCoords ds y).shape.getD
        (get_axis_num (attachCoords ds y).dims c) 0 =
        (attachCoords ds xA).data.length from hsh)
      (show 2 ≤ (attachCoords ds xA).data.length from hn2)]
    rw [show ((attachCoords ds y).dims.set
        (get_axis_num (attachCoords ds y).dims c) (c ++ sfx)) =
        pre2 ++ d :: post2 from hdims2]
    rw [coordsFor_error hpre2 hd hmiss]
  simp only [interp_coordinate, hgx]
  rw [hnames, interpLoop_skip_prefix pre hpre,
    interpLoop_cons_error hstep]

/-- Witness for C10 on `dsC6`: its variable `v` depends on `pressure`
and on `station`, which has no coordinate, so the call raises
`KeyError: station`. -/
theorem C10_witness :
    interp_coordinate dsC6 "pressure" tgtOOB true "_i" false =
      Except.error ("KeyError: " ++ "station") :=
  C10_missing_coord_error dsC6 "pressure" "_i" "station" tgtOOB
    [] [] ["pressure_i"] [] "v" vC6 paC1 rfl rfl
    (by intro w hw; cases hw) rfl (by decide) rfl rfl (by decide) rfl
    (by decide) rfl (by decide)

/-! ## Lookup helper lemmas for the tracking argument -/

theorem getRaw_of_dv {ds : Dataset} {w : String} {yw : DataArray}
    (h : alookup ds.data_vars w = some yw) : ds.getRaw w = some yw := by
  simp only [Dataset.getRaw, h]

theorem getRaw_none_dv {ds : Dataset} {n : String}
    (h : ds.getRaw n = none) : alookup ds.data_vars n = none := by
  simp only [Dataset.getRaw] at h
  cases hdv : alookup ds.data_vars n with
  | none => rfl
  | some a => simp only [hdv] at h; cases h

theorem getRaw_none_co {ds : Dataset} {n : String}
    (h : ds.getRaw n = none) : alookup ds.coords n = none := by
  simp only [Dataset.getRaw] at h
  cases hdv : alookup ds.data_vars n with
  | none => simp only [hdv] at h; exact h
  | some a => simp only [hdv] at h; cases h

theorem mem_keys_of_alookup_some {l : List (String × α)} {k : String} {b : α}
    (h : alookup l k = some b) : k ∈ l.map Prod.fst := by
  induction l with
  | nil => cases h
  | cons p ps ih =>
    rw [alookup] at h
    by_cases hp : p.1 = k
    · rw [List.map_cons, hp]
      exact List.mem_cons_self _ _
    · rw [if_neg hp] at h
      exact List.mem_cons_of_mem _ (ih h)

theorem alookup_some_of_mem_keys {l : List (String × α)} {k : String}
    (h : k ∈ l.map Prod.fst) : ∃ b, alookup l k = some b := by
  induction l with
  | nil => cases h
  | cons p ps ih =>
    rw [List.map_cons] at h
    rcases List.mem_cons.mp h with heq | hmem
    · exact ⟨p.2, by rw [alookup, if_pos heq.symm]⟩
    · by_cases hp : p.1 = k
      · exact ⟨p.2, by rw [alookup, if_pos hp]⟩
      · obtain ⟨b, hb⟩ := ih hmem
        exact ⟨b, by rw [alookup, if_neg hp]; exact hb⟩

theorem alookup_setItem_dv_ne {ds : Dataset} {name : String} {da : DataArray}
    {k : String} (hk : k ≠ name) :
    alookup (ds.setItem name da).data_vars k = alookup ds.data_vars k := by
  unfold Dataset.setItem
  by_cases hck : hasKey ds.coords name
  · rw [if_pos hck, mergeFold_data_vars]
  · rw [if_neg hck, mergeFold_data_vars]
    exact alookup_setAssoc_ne hk

theorem mergeFold_coords_none {k : String} (l : List (String × List Val)) :
    ∀ acc : Dataset, alookup acc.coords k = none → (∀ p ∈ l, p.1 ≠ k) →
    alookup (l.foldl (fun acc p =>
      if hasKey acc.coords p.1 || hasKey acc.data_vars p.1 then acc
      else { acc with coords := acc.coords ++ [(p.1, mkDimCoord p.1 p.2)] })
      acc).coords k = none := by
  induction l with
  | nil => intro acc h _; exact h
  | cons q qs ih =>
    intro acc h hkeys
    rw [List.foldl_cons]
    apply ih
    · by_cases hk : hasKey acc.coords q.1 || hasKey acc.data_vars q.1
      · rw [if_pos hk]; exact h
      · rw [if_neg hk]
        have hq : q.1 ≠ k := hkeys q (List.mem_cons_self q qs)
        simp only
        rw [alookup_append_of_none h, alookup, if_neg hq]
        rfl
    · exact fun p hp => hkeys p (List.mem_cons_of_mem _ hp)

theorem getRaw_setItem_none {ds : Dataset} {name : String} {da : DataArray}
    {k : String} (hk : k ≠ name) (hnone : ds.getRaw k = none)
    (hkeys : ∀ p ∈ da.coords, p.1 ≠ k) :
    (ds.setItem name da).getRaw k = none := by
  have hdv : alookup (ds.setItem name da).data_vars k = none := by
    rw [alookup_setItem_dv_ne hk]
    exact getRaw_none_dv hnone
  have hco : alookup (ds.setItem name da).coords k = none := by
    unfold Dataset.setItem
    by_cases hck : hasKey ds.coords name
    · rw [if_pos hck]
      apply mergeFold_coords_none _ _ _ hkeys
      simp only
      rw [alookup_replaceAssoc_ne hk]
      exact getRaw_none_co hnone
    · rw [if_neg hck]
      apply mergeFold_coords_none _ _ _ hkeys
      simp only
      exact getRaw_none_co hnone
  simp only [Dataset.getRaw, hdv, hco]

theorem coordEntry_fst {xn : String} {tgts : List Val}
    {yc : List (String × List Val)} {d : String} {p : String × List Val}
    (h : coordEntry xn tgts yc d = Except.ok p) : p.1 = d := by
  unfold coordEntry at h
  by_cases hd : d = xn
  · rw [if_pos hd] at h
    cases h
    rfl
  · rw [if_neg hd] at h
    cases hl : alookup yc d with
    | none => rw [hl] at h; cases h
    | some vals =>
      rw [hl] at h
      cases h
      rfl

theorem coordsFor_keys {xn : String} {tgts : List Val}
    {yc : List (String × List Val)} :
    ∀ {L : List String} {ps : List (String × List Val)},
    coordsFor xn tgts yc L = Except.ok ps → ∀ p ∈ ps, p.1 ∈ L := by
  intro L
  induction L with
  | nil =>
    intro ps h p hp
    cases h
    cases hp
  | cons d rest ih =>
    intro ps h p hp
    rw [coordsFor] at h
    cases he : coordEntry xn tgts yc d with
    | error e => rw [he] at h; cases h
    | ok p0 =>
      rw [he] at h
      cases hr : coordsFor xn tgts yc rest with
      | error e => rw [hr] at h; cases h
      | ok ps0 =>
        rw [hr] at h
        cases h
        rcases List.mem_cons.mp hp with rfl | hp2
        · rw [coordEntry_fst he]
          exact List.mem_cons_self _ _
        · exact List.mem_cons_of_mem _ (ih hr p hp2)

/-! ## Inversion of a successful `interpStep` -/

theorem interpStep_ok_inv {x : DataArray} {c xn : String} {tgts : List Val}
    {sfx : String} {ds : Dataset} {yname : String} {dsc1 : Dataset}
    (hstep : interpStep x c xn tgts true sfx false ds yname =
      Except.ok dsc1) :
    (∃ Y, ds.getVar yname = Except.ok Y ∧ c ∉ Y.dims ∧ dsc1 = ds) ∨
    (∃ Y coords2, ds.getVar yname = Except.ok Y ∧ c ∈ Y.dims ∧
      coordsFor xn tgts Y.coords (Y.dims.set (get_axis_num Y.dims c) xn) =
        Except.ok coords2 ∧
      dsc1 = Dataset.mk
        (removeKey (ds.setItem (yname ++ sfx)
          (ynewOf x c xn tgts Y coords2)).coords yname)
        (removeKey (ds.setItem (yname ++ sfx)
          (ynewOf x c xn tgts Y coords2)).data_vars yname)
        (ds.setItem (yname ++ sfx) (ynewOf x c xn tgts Y coords2)).attrs) := by
  unfold interpStep at hstep
  cases hgv : ds.getVar yname with
  | error e => rw [hgv] at hstep; cases hstep
  | ok Y =>
    rw [hgv] at hstep
    simp only at hstep
    by_cases hcY : c ∈ Y.dims
    · rw [if_pos hcY] at hstep
      cases hmk : interp1d_mk x Y.shape (get_axis_num Y.dims c) with
      | error e => simp only [hmk] at hstep; cases hstep
      | ok u =>
        simp only [hmk] at hstep
        cases hcf : coordsFor xn tgts Y.coords
            (Y.dims.set (get_axis_num Y.dims c) xn) with
        | error e => simp only [hcf] at hstep; cases hstep
        | ok coords2 =>
          simp only [hcf, interp1d_call_false] at hstep
          rw [if_pos trivial] at hstep
          have hfold : (⟨Y.dims.set (get_axis_num Y.dims c) xn,
              Y.shape.set (get_axis_num Y.dims c) tgts.length,
              interpData ((argsortIdx x.data).map (fun m => x.data.getD m none))
                (argsortIdx x.data) Y.shape Y.data (get_axis_num Y.dims c) tgts,
              coords2, []⟩ : DataArray) = ynewOf x c xn tgts Y coords2 := rfl
          rw [hfold] at hstep
          unfold Dataset.dropVar at hstep
          by_cases hpres : (hasKey (ds.setItem (yname ++ sfx)
              (ynewOf x c xn tgts Y coords2)).coords yname ||
            hasKey (ds.setItem (yname ++ sfx)
              (ynewOf x c xn tgts Y coords2)).data_vars yname) = true
          · rw [if_pos hpres] at hstep
            refine Or.inr ⟨Y, coords2, rfl, hcY, hcf, ?_⟩
            exact (Except.ok.inj hstep).symm
          · rw [if_neg hpres] at hstep
            cases hstep
    · rw [if_neg hcY] at hstep
      exact Or.inl ⟨Y, rfl, hcY, (Except.ok.inj hstep).symm⟩

theorem hasKey_false_of_none {l : List (String × α)} {k : String}
    (h : alookup l k = none) : hasKey l k = false := by
  unfold hasKey
  rw [h]
  rfl

theorem ne_of_dv_some_getRaw_none {ds : Dataset} {a b : String}
    {y : DataArray} (h1 : alookup ds.data_vars a = some y)
    (h2 : ds.getRaw b = none) : a ≠ b := by
  intro he
  rw [he] at h1
  rw [getRaw_none_dv h2] at h1
  cases h1

theorem getRaw_mk_remove_none {SI : Dataset} {w k : String} (hk : k ≠ w)
    (h : SI.getRaw k = none) :
    (Dataset.mk (removeKey SI.coords w) (removeKey SI.data_vars w)
      SI.attrs).getRaw k = none := by
  simp only [Dataset.getRaw]
  rw [alookup_removeKey_ne hk, getRaw_none_dv h, alookup_removeKey_ne hk]
  exact getRaw_none_co h

theorem interpLoop_dv_pres {x : DataArray} {c xn : String} {tgts : List Val}
    {sfx : String} :
    ∀ (names : List String) (dsc ds' : Dataset) (k : String) (da : DataArray),
    interpLoop x c xn tgts true sfx false dsc names = Except.ok ds' →
    alookup dsc.data_vars k = some da →
    (∀ w ∈ names, w ≠ k) →
    (∀ w ∈ names, w ++ sfx ≠ k) →
    alookup ds'.data_vars k = some da := by
  intro names
  induction names with
  | nil =>
    intro dsc ds' k da hrun hk _ _
    cases hrun
    exact hk
  | cons w ws ih =>
    intro dsc ds' k da hrun hk h1 h2
    rw [interpLoop] at hrun
    cases hstep : interpStep x c xn tgts true sfx false dsc w with
    | error e => rw [hstep] at hrun; cases hrun
    | ok dsc1 =>
      simp only [hstep] at hrun
      have hkw : k ≠ w := (h1 w (List.mem_cons_self w ws)).symm
      have hkws : k ≠ w ++ sfx := (h2 w (List.mem_cons_self w ws)).symm
      rcases interpStep_ok_inv hstep with ⟨Y, hgv, hcn, rfl⟩ |
        ⟨Y, coords2, hgv, hcY, hcf, rfl⟩
      · exact ih _ _ _ _ hrun hk
          (fun w2 hw2 => h1 w2 (List.mem_cons_of_mem _ hw2))
          (fun w2 hw2 => h2 w2 (List.mem_cons_of_mem _ hw2))
      · apply ih _ _ _ _ hrun _
          (fun w2 hw2 => h1 w2 (List.mem_cons_of_mem _ hw2))
          (fun w2 hw2 => h2 w2 (List.mem_cons_of_mem _ hw2))
        show alookup (removeKey (Dataset.setItem _ _ _).data_vars w) k = some da
        rw [alookup_removeKey_ne hkw, alookup_setItem_dv_ne hkws]
        exact hk

theorem interpLoop_track {x : DataArray} {c xn : String} {tgts : List Val}
    {sfx : String} (hsfx : sfx ≠ "") :
    ∀ (names : List String) (dsc ds' : Dataset) (v : String) (y : DataArray),
    names.Nodup →
    interpLoop x c xn tgts true sfx false dsc names = Except.ok ds' →
    v ∈ names →
    alookup dsc.data_vars v = some y →
    c ∈ y.dims →
    (∀ w ∈ names, ∃ yw, alookup dsc.data_vars w = some yw) →
    (∀ w ∈ names, dsc.getRaw (w ++ sfx) = none) →
    (∀ w ∈ names, ∀ yw, alookup dsc.data_vars w = some yw →
      ∀ w2 ∈ names, (w2 ++ sfx) ∉ yw.dims) →
    (∀ w ∈ names, ∀ w2 ∈ names, w ++ sfx ≠ w2) →
    (∀ w ∈ names, xn ≠ w ++ sfx) →
    ∃ coords2, alookup ds'.data_vars (v ++ sfx) =
      some (ynewOf x c xn tgts y coords2) := by
  intro names
  induction names with
  | nil =>
    intro dsc ds' v y _ _ hv
    cases hv
  | cons w ws ih =>
    intro dsc ds' v y hnd hrun hv hvdv hcy hpres hfr hdims hgen hxnf
    have hw0 : w ∈ w :: ws := List.mem_cons_self w ws
    have hnd1 : w ∉ ws := (List.nodup_cons.mp hnd).1
    have hnd2 : ws.Nodup := (List.nodup_cons.mp hnd).2
    rw [interpLoop] at hrun
    cases hstep : interpStep x c xn tgts true sfx false dsc w with
    | error e => rw [hstep] at hrun; cases hrun
    | ok dsc1 =>
      simp only [hstep] at hrun
      by_cases hvw : v = w
      · -- the tracked variable is processed now
        subst hvw
        rcases interpStep_ok_inv hstep with ⟨Y, hgv, hcn, heq⟩ |
          ⟨Y, coords2, hgv, hcY, hcf, heq⟩
        · -- a skip is impossible: c is one of its dims
          exfalso
          rw [getVar_eq (getRaw_of_dv hvdv)] at hgv
          have hYeq : Y = attachCoords dsc y := (Except.ok.inj hgv).symm
          rw [hYeq, attach_dims] at hcn
          exact hcn hcy
        · rw [heq] at hrun
          rw [getVar_eq (getRaw_of_dv hvdv)] at hgv
          have hYeq : Y = attachCoords dsc y := (Except.ok.inj hgv).symm
          subst hYeq
          have hfrv := hfr v hw0
          have hk1 : alookup (Dataset.setItem dsc (v ++ sfx)
              (ynewOf x c xn tgts (attachCoords dsc y) coords2)).data_vars
              (v ++ sfx) =
              some (ynewOf x c xn tgts (attachCoords dsc y) coords2) :=
            getRaw_setItem_fresh (hasKey_false_of_none (getRaw_none_co hfrv))
              (hasKey_false_of_none (getRaw_none_dv hfrv))
          have hk2 : alookup (Dataset.mk
              (removeKey (Dataset.setItem dsc (v ++ sfx)
                (ynewOf x c xn tgts (attachCoords dsc y) coords2)).coords v)
              (removeKey (Dataset.setItem dsc (v ++ sfx)
                (ynewOf x c xn tgts (attachCoords dsc y) coords2)).data_vars v)
              (Dataset.setItem dsc (v ++ sfx)
                (ynewOf x c xn tgts (attachCoords dsc y) coords2)).attrs
              ).data_vars (v ++ sfx) =
              some (ynewOf x c xn tgts (attachCoords dsc y) coords2) := by
            show alookup (removeKey _ v) (v ++ sfx) = _
            rw [alookup_removeKey_ne (str_append_ne_self hsfx)]
            exact hk1
          refine ⟨coords2, ?_⟩
          have hpers := interpLoop_dv_pres ws _ _ (v ++ sfx) _ hrun hk2
            (fun w2 hw2 =>
              (hgen v hw0 w2 (List.mem_cons_of_mem _ hw2)).symm)
            (fun w2 hw2 => str_append_ne
              (fun he => hnd1 (he ▸ hw2)) )
          exact hpers
      · -- the tracked variable sits further down the list
        have hvws : v ∈ ws := by
          rcases List.mem_cons.mp hv with heq | h2
          · exact absurd heq hvw
          · exact h2
        rcases interpStep_ok_inv hstep with ⟨Y, hgv, hcn, heq⟩ |
          ⟨Y, coords2, hgv, hcY, hcf, heq⟩
        · rw [heq] at hrun
          exact ih dsc _ v y hnd2 hrun hvws hvdv hcy
            (fun w2 hw2 => hpres w2 (List.mem_cons_of_mem _ hw2))
            (fun w2 hw2 => hfr w2 (List.mem_cons_of_mem _ hw2))
            (fun w2 hw2 yw2 hyw2 w3 hw3 => hdims w2
              (List.mem_cons_of_mem _ hw2) yw2 hyw2 w3
              (List.mem_cons_of_mem _ hw3))
            (fun w2 hw2 w3 hw3 => hgen w2 (List.mem_cons_of_mem _ hw2) w3
              (List.mem_cons_of_mem _ hw3))
            (fun w2 hw2 => hxnf w2 (List.mem_cons_of_mem _ hw2))
        · -- the head variable w was interpolated; all invariants survive
          rw [heq] at hrun
          obtain ⟨yw, hyw⟩ := hpres w hw0
          rw [getVar_eq (getRaw_of_dv hyw)] at hgv
          have hYeq : Y = attachCoords dsc yw := (Except.ok.inj hgv).symm
          subst hYeq
          have hfrw := hfr w hw0
          have hkeys2 : ∀ p ∈ coords2, p.1 ∈
              (attachCoords dsc yw).dims.set
                (get_axis_num (attachCoords dsc yw).dims c) xn :=
            fun p hp => coordsFor_keys hcf p hp
          -- notation for the updated dataset
          have hndw : ∀ w2 ∈ ws, w2 ≠ w := fun w2 hw2 he => hnd1 (he ▸ hw2)
          have hdv_pres : ∀ (k : String), k ≠ w → k ≠ w ++ sfx →
              alookup (Dataset.mk
                (removeKey (Dataset.setItem dsc (w ++ sfx)
                  (ynewOf x c xn tgts (attachCoords dsc yw) coords2)).coords w)
                (removeKey (Dataset.setItem dsc (w ++ sfx)
                  (ynewOf x c xn tgts (attachCoords dsc yw) coords2)).data_vars w)
                (Dataset.setItem dsc (w ++ sfx)
                  (ynewOf x c xn tgts (attachCoords dsc yw) coords2)).attrs
                ).data_vars k = alookup dsc.data_vars k := by
            intro k hk1 hk2
            show alookup (removeKey _ w) k = _
            rw [alookup_removeKey_ne hk1, alookup_setItem_dv_ne hk2]
          have hw2sfx_ne : ∀ w2 ∈ ws, w2 ≠ w ++ sfx := by
            intro w2 hw2
            obtain ⟨yw2, hyw2⟩ := hpres w2 (List.mem_cons_of_mem _ hw2)
            exact ne_of_dv_some_getRaw_none hyw2 hfrw
          have hraw_none : ∀ w2 ∈ ws, (Dataset.mk
              (removeKey (Dataset.setItem dsc (w ++ sfx)
                (ynewOf x c xn tgts (attachCoords dsc yw) coords2)).coords w)
              (removeKey (Dataset.setItem dsc (w ++ sfx)
                (ynewOf x c xn tgts (attachCoords dsc yw) coords2)).data_vars w)
              (Dataset.setItem dsc (w ++ sfx)
                (ynewOf x c xn tgts (attachCoords dsc yw) coords2)).attrs
              ).getRaw (w2 ++ sfx) = none := by
            intro w2 hw2
            apply getRaw_mk_remove_none
              ((hgen w2 (List.mem_cons_of_mem _ hw2) w hw0))
            apply getRaw_setItem_none
              (str_append_ne (hndw w2 hw2))
              (hfr w2 (List.mem_cons_of_mem _ hw2))
            intro p hp
            intro hpe
            rcases List.mem_or_eq_of_mem_set (hpe ▸ hkeys2 p hp) with hin | hxn2
            · rw [attach_dims] at hin
              exact hdims w hw0 yw hyw w2 (List.mem_cons_of_mem _ hw2) hin
            · exact hxnf w2 (List.mem_cons_of_mem _ hw2) hxn2.symm
          apply ih _ _ v y hnd2 hrun hvws
          · rw [hdv_pres v (hndw v hvws)
              (hw2sfx_ne v hvws)]
            exact hvdv
          · exact hcy
          · intro w2 hw2
            obtain ⟨yw2, hyw2⟩ := hpres w2 (List.mem_cons_of_mem _ hw2)
            refine ⟨yw2, ?_⟩
            rw [hdv_pres w2 (hndw w2 hw2) (hw2sfx_ne w2 hw2)]
            exact hyw2
          · exact hraw_none
          · intro w2 hw2 yw2 hyw2 w3 hw3
            rw [hdv_pres w2 (hndw w2 hw2) (hw2sfx_ne w2 hw2)] at hyw2
            exact hdims w2 (List.mem_cons_of_mem _ hw2) yw2 hyw2 w3
              (List.mem_cons_of_mem _ hw3)
          · exact fun w2 hw2 w3 hw3 => hgen w2 (List.mem_cons_of_mem _ hw2)
              w3 (List.mem_cons_of_mem _ hw3)
          · exact fun w2 hw2 => hxnf w2 (List.mem_cons_of_mem _ hw2)

/-! ## Out-of-range targets produce the fill value -/

theorem getD_map_range {α : Type} {f : Nat → α} {N p : Nat} {d : α}
    (hp : p < N) : ((List.range N).map f).getD p d = f p := by
  rw [List.getD_eq_getElem?_getD]
  simp [List.getElem?_map, List.getElem?_range hp]

theorem interpData_length {xs : List Val} {perm : List Nat}
    {shape : List Nat} {data : List Val} {axis : Nat} {targets : List Val} :
    (interpData xs perm shape data axis targets).length =
      listProd (shape.set axis targets.length) := by
  simp [interpData]

theorem interpData_oob {xs : List Val} {perm : List Nat} {shape : List Nat}
    {data : List Val} {axis : Nat} {targets : List Val} {p j : Nat}
    (hp : p < listProd (shape.set axis targets.length))
    (hj : (unflatten (shape.set axis targets.length) p).getD axis 0 = j)
    (hoob : isOOB xs (targets.getD j none) = true) :
    (interpData xs perm shape data axis targets).getD p none = none := by
  unfold interpData
  rw [getD_map_range hp]
  simp only [hj, hoob, if_true]

/-- C6 (amended): out-of-range targets never themselves raise — they
produce the NaN fill value — but the call may still fail for unrelated
reasons (`C6_counterexample`).  Precisely: whenever `interp_coordinate`
with default options returns a dataset, each interpolated variable holds
the fill value `none` at every position whose target is out of the
source coordinate's (sorted) range.  The name-hygiene hypotheses say the
suffixed names are fresh, as they are in any real xarray dataset that
does not already use the suffix. -/
theorem C6_oob_fill_on_success (ds ds' : Dataset) (c sfx : String)
    (tgts : List Val) (v : String) (y xA : DataArray) (p j : Nat)
    (hsfx : sfx ≠ "")
    (hrun : interp_coordinate ds c tgts true sfx false = Except.ok ds')
    (hx : ds.getRaw c = some xA)
    (hv : alookup ds.data_vars v = some y)
    (hc : c ∈ y.dims)
    (hnd : (ds.data_vars.map Prod.fst).Nodup)
    (hfr : ∀ w ∈ ds.data_vars.map Prod.fst, ds.getRaw (w ++ sfx) = none)
    (hdims : ∀ w ∈ ds.data_vars.map Prod.fst, ∀ yw,
      alookup ds.data_vars w = some yw →
      ∀ w2 ∈ ds.data_vars.map Prod.fst, (w2 ++ sfx) ∉ yw.dims)
    (hgen : ∀ w ∈ ds.data_vars.map Prod.fst,
      ∀ w2 ∈ ds.data_vars.map Prod.fst, w ++ sfx ≠ w2)
    (hxnf : ∀ w ∈ ds.data_vars.map Prod.fst, (c ++ sfx) ≠ w ++ sfx)
    (hcv : v ++ sfx ≠ c) :
    ∃ da, ds'.getRaw (v ++ sfx) = some da ∧
      (p < da.data.length →
       (unflatten da.shape p).getD (get_axis_num y.dims c) 0 = j →
       isOOB ((argsortIdx xA.data).map (fun m => xA.data.getD m none))
         (tgts.getD j none) = true →
       da.data.getD p none = none) := by
  simp only [interp_coordinate, getVar_eq hx] at hrun
  cases hloop : interpLoop (attachCoords ds xA) c (c ++ sfx) tgts true sfx
      false ds (ds.data_vars.map Prod.fst) with
  | error e => simp only [hloop] at hrun; cases hrun
  | ok ds2 =>
    simp only [hloop] at hrun
    rw [if_pos trivial] at hrun
    unfold Dataset.dropVar at hrun
    by_cases hpres : (hasKey ds2.coords c || hasKey ds2.data_vars c) = true
    · rw [if_pos hpres] at hrun
      obtain ⟨coords2, hdv2⟩ := interpLoop_track hsfx
        (ds.data_vars.map Prod.fst) ds ds2 v y hnd hloop
        (mem_keys_of_alookup_some hv) hv hc
        (fun w hw => alookup_some_of_mem_keys hw)
        hfr hdims hgen hxnf
      have hds' : ds' = Dataset.mk (removeKey ds2.coords c)
          (removeKey ds2.data_vars c) ds2.attrs := (Except.ok.inj hrun).symm
      refine ⟨ynewOf (attachCoords ds xA) c (c ++ sfx) tgts y coords2, ?_, ?_⟩
      · rw [hds']
        apply getRaw_of_dv
        show alookup (removeKey ds2.data_vars c) (v ++ sfx) = _
        rw [alookup_removeKey_ne hcv]
        exact hdv2
      · intro hp hj hoob
        have hlen : (ynewOf (attachCoords ds xA) c (c ++ sfx) tgts y
            coords2).data.length =
            listProd (y.shape.set (get_axis_num y.dims c) tgts.length) :=
          interpData_length
        rw [hlen] at hp
        exact interpData_oob hp hj hoob
    · rw [if_neg hpres] at hrun
      cases hrun

/-- Witness for the amended C6: interpolating the scenario dataset to the
single out-of-range target `99` succeeds and fills `temp_i` with NaN. -/
theorem C6_witness :
    dsOOB.getRaw "temp_i" = some tiOOB ∧ tiOOB.data.getD 0 none = none := by
  obtain ⟨da, h1, h2⟩ := C6_oob_fill_on_success dsC1 dsOOB "pressure" "_i"
    tgtOOB "temp" taC1 paC1 0 0 (by decide) interpOOB_eval rfl rfl
    (by decide) (by decide)
    (by
      intro w hw
      rcases List.mem_cons.mp hw with rfl | hw2
      · rfl
      · cases hw2)
    (by
      intro w hw yw hyw w2 hw2
      rcases List.mem_cons.mp hw with rfl | hw3
      · have hyweq : yw = taC1 := by
          rw [show alookup dsC1.data_vars "temp" = some taC1 from rfl] at hyw
          exact (Option.some.inj hyw).symm
        subst hyweq
        rcases List.mem_cons.mp hw2 with rfl | hw4
        · decide
        · cases hw4
      · cases hw3)
    (by decide) (by decide) (by decide)
  have h1e : some tiOOB = some da := by
    rw [show dsOOB.getRaw ("temp" ++ "_i") = some tiOOB from rfl] at h1
    exact h1
  have hda : da = tiOOB := (Option.some.inj h1e).symm
  subst hda
  refine ⟨h1, h2 (by decide) (by decide) (by decide)⟩

/-! ## Interpolation on sorted nodes: numeric lemmas -/

theorem vleKey_false_of_vlt {a b : Val} (h : vlt a b = true) :
    vleKey b a = false := by
  cases a with
  | none => simp [vlt] at h
  | some x =>
    cases b with
    | none => simp [vlt] at h
    | some y =>
      simp [vlt] at h
      simp [vleKey]
      linarith

theorem length_takeWhile_eq {α : Type} [Inhabited α] {l : List α}
    {p : α → Bool} {k : Nat} (hk : k < l.length)
    (h1 : ∀ i, i < k → p (l.getD i default) = true)
    (h2 : p (l.getD k default) = false) :
    (l.takeWhile p).length = k := by
  induction l generalizing k with
  | nil => cases hk
  | cons a as ih =>
    cases k with
    | zero =>
      rw [List.getD_cons_zero] at h2
      rw [List.takeWhile_cons_of_neg (by simp [h2])]
      rfl
    | succ k2 =>
      have ha : p a = true := by
        have := h1 0 (Nat.succ_pos k2)
        rwa [List.getD_cons_zero] at this
      rw [List.takeWhile_cons_of_pos ha]
      rw [List.length_cons]
      congr 1
      apply ih (Nat.lt_of_succ_lt_succ hk)
      · intro i hi
        have := h1 (i + 1) (Nat.succ_lt_succ hi)
        rwa [List.getD_cons_succ] at this
      · rwa [List.getD_cons_succ] at h2

theorem map_getD_range_eq {α : Type} {d : α} (l : List α) :
    (List.range l.length).map (fun i => l.getD i d) = l := by
  induction l with
  | nil => rfl
  | cons a as ih =>
    rw [List.length_cons, List.range_succ_eq_map, List.map_cons,
      List.getD_cons_zero, List.map_map]
    have h : (fun i => (a :: as).getD i d) ∘ Nat.succ
        = (fun i => as.getD i d) := by
      funext i
      simp
    rw [h, ih]

theorem getD_isSome {l : List Val} (hs : ∀ v ∈ l, v.isSome) {i : Nat}
    (hi : i < l.length) : ∃ q, l.getD i none = some q := by
  have hm : l.getD i none ∈ l := by
    rw [List.getD_eq_getElem l none hi]
    exact List.getElem_mem hi
  exact Option.isSome_iff_exists.mp (hs _ hm)

theorem pairwise_vlt_getD {XS : List Val}
    (hpw : List.Pairwise (fun a b => vlt a b = true) XS) {i j : Nat}
    (hij : i < j) (hj : j < XS.length) :
    vlt (XS.getD i none) (XS.getD j none) = true := by
  rw [List.getD_eq_getElem XS none (Nat.lt_trans hij hj),
    List.getD_eq_getElem XS none hj]
  exact List.pairwise_iff_getElem.mp hpw i j (Nat.lt_trans hij hj) hj hij

theorem vlt_some_iff {a b : Val} {x y : ℚ} (ha : a = some x)
    (hb : b = some y) : vlt a b = true ↔ x < y := by
  subst ha
  subst hb
  simp [vlt]

theorem vlt_irrefl (a : Val) : vlt a a = false := by
  cases a <;> simp [vlt]

theorem headD_eq_getD (l : List Val) : l.headD none = l.getD 0 none := by
  cases l <;> rfl

theorem getLastD_eq_getD (l : List Val) :
    l.getLastD none = l.getD (l.length - 1) none := by
  rw [List.getLastD_eq_getLast?, List.getLast?_eq_getElem?,
    List.getD_eq_getElem?_getD]

theorem isOOB_node_false {XS : List Val} {k : Nat}
    (hpw : List.Pairwise (fun a b => vlt a b = true) XS)
    (hk : k < XS.length) :
    isOOB XS (XS.getD k none) = false := by
  rw [isOOB, headD_eq_getD, getLastD_eq_getD]
  have h1 : vlt (XS.getD k none) (XS.getD 0 none) = false := by
    rcases Nat.eq_zero_or_pos k with h0 | h0
    · subst h0
      exact vlt_irrefl _
    · have := pairwise_vlt_getD hpw h0 hk
      cases hx : XS.getD 0 none with
      | none => simp [vlt]
      | some x =>
        cases hy : XS.getD k none with
        | none => simp [vlt]
        | some y =>
          rw [hx, hy] at this
          simp [vlt] at this ⊢
          linarith
  have h2 : vlt (XS.getD (XS.length - 1) none) (XS.getD k none) = false := by
    rcases Nat.lt_or_ge k (XS.length - 1) with hlt | hge
    · have := pairwise_vlt_getD hpw hlt (by omega)
      cases hx : XS.getD k none with
      | none => simp [vlt]
      | some x =>
        cases hy : XS.getD (XS.length - 1) none with
        | none => simp [vlt]
        | some y =>
          rw [hx, hy] at this
          simp [vlt] at this ⊢
          linarith
    · have hkeq : k = XS.length - 1 := by omega
      subst hkeq
      exact vlt_irrefl _
  rw [h1, h2]
  rfl

theorem ssLeft_node {XS : List Val} {k : Nat}
    (hpw : List.Pairwise (fun a b => vlt a b = true) XS)
    (hk : k < XS.length) :
    ssLeft XS (XS.getD k none) = k := by
  rw [ssLeft]
  apply length_takeWhile_eq hk
  · intro i hi
    exact pairwise_vlt_getD hpw hi hk
  · exact vlt_irrefl _

theorem interpPoint_node {XS D : List Val} {k : Nat}
    (hpw : List.Pairwise (fun a b => vlt a b = true) XS)
    (hsome : ∀ v ∈ XS, v.isSome)
    (hd : ∀ v ∈ D, v.isSome) (hlen : D.length = XS.length)
    (h2 : 2 ≤ XS.length) (hk : k < XS.length) :
    interpPoint XS D (XS.getD k none) = D.getD k none := by
  rw [interpPoint]
  rw [ssLeft_node hpw hk]
  rcases Nat.eq_zero_or_pos k with h0 | h0
  · subst h0
    have hj : min (max 0 1) (XS.length - 1) = 1 := by omega
    rw [hj]
    obtain ⟨x0, hx0⟩ := getD_isSome hsome (show 0 < XS.length by omega)
    obtain ⟨x1, hx1⟩ := getD_isSome hsome (show 1 < XS.length by omega)
    obtain ⟨y0, hy0⟩ := getD_isSome hd (show 0 < D.length by omega)
    obtain ⟨y1, hy1⟩ := getD_isSome hd (show 1 < D.length by omega)
    have hlt : x0 < x1 := by
      have := pairwise_vlt_getD hpw (show 0 < 1 by omega) (by omega)
      exact (vlt_some_iff hx0 hx1).mp this
    simp only [hx0, hx1, hy0, hy1, vsub, vdiv]
    rw [if_neg (sub_ne_zero.mpr hlt.ne')]
    simp only [vmul, vadd]
    congr 1
    ring
  · have hj : min (max k 1) (XS.length - 1) = k := by omega
    rw [hj]
    obtain ⟨xm, hxm⟩ := getD_isSome hsome (show k - 1 < XS.length by omega)
    obtain ⟨xk, hxk⟩ := getD_isSome hsome hk
    obtain ⟨ym, hym⟩ := getD_isSome hd (show k - 1 < D.length by omega)
    obtain ⟨yk, hyk⟩ := getD_isSome hd (show k < D.length by omega)
    have hlt : xm < xk := by
      have := pairwise_vlt_getD hpw (show k - 1 < k by omega) hk
      exact (vlt_some_iff hxm hxk).mp this
    have hne : xk - xm ≠ 0 := sub_ne_zero.mpr hlt.ne'
    simp only [hxm, hxk, hym, hyk, vsub, vdiv]
    rw [if_neg hne]
    simp only [vmul, vadd]
    congr 1
    field_simp

theorem interpPoint_isSome {XS D : List Val} {t : ℚ}
    (hpw : List.Pairwise (fun a b => vlt a b = true) XS)
    (hsome : ∀ v ∈ XS, v.isSome)
    (hd : ∀ v ∈ D, v.isSome) (hlen : D.length = XS.length)
    (h2 : 2 ≤ XS.length) :
    (interpPoint XS D (some t)).isSome := by
  rw [interpPoint]
  set j := min (max (ssLeft XS (some t)) 1) (XS.length - 1) with hjdef
  have hj1 : 1 ≤ j := by
    have h1 : 1 ≤ max (ssLeft XS (some t)) 1 := le_max_right _ _
    have hn1 : 1 ≤ XS.length - 1 := by omega
    exact le_min h1 hn1
  have hjn : j < XS.length := by
    have := min_le_right (max (ssLeft XS (some t)) 1) (XS.length - 1)
    omega
  obtain ⟨xm, hxm⟩ := getD_isSome hsome (show j - 1 < XS.length by omega)
  obtain ⟨xj, hxj⟩ := getD_isSome hsome hjn
  obtain ⟨ym, hym⟩ := getD_isSome hd (show j - 1 < D.length by omega)
  obtain ⟨yj, hyj⟩ := getD_isSome hd (show j < D.length by omega)
  have hlt : xm < xj := by
    have := pairwise_vlt_getD hpw (show j - 1 < j by omega) hjn
    exact (vlt_some_iff hxm hxj).mp this
  simp only [hxm, hxj, hym, hyj, vsub, vdiv]
  rw [if_neg (sub_ne_zero.mpr hlt.ne')]
  simp [vmul, vadd]

theorem sortPairs_of_pairwise {L : List (Nat × Val)}
    (h : List.Pairwise (fun p q => vlt p.2 q.2 = true) L) :
    sortPairs L = L := by
  induction L with
  | nil => rfl
  | cons p ps ih =>
    rw [sortPairs, ih (List.Pairwise.sublist (List.sublist_cons_self p ps) h)]
    cases ps with
    | nil => rfl
    | cons q qs =>
      rw [insPair]
      rw [if_neg]
      have hpq : vlt p.2 q.2 = true := (List.pairwise_cons.mp h).1 q (by simp)
      rw [vleKey_false_of_vlt hpq]
      simp

theorem pairwise_vlt_enum {l : List Val}
    (h : List.Pairwise (fun a b => vlt a b = true) l) :
    List.Pairwise (fun p q : Nat × Val => vlt p.2 q.2 = true) l.enum := by
  rw [List.pairwise_iff_getElem] at h ⊢
  intro i j hi hj hij
  have hi2 : i < l.length := by simpa using hi
  have hj2 : j < l.length := by simpa using hj
  rw [List.getElem_enum, List.getElem_enum]
  exact h i j hi2 hj2 hij

theorem argsortIdx_of_pairwise {l : List Val}
    (h : List.Pairwise (fun a b => vlt a b = true) l) :
    argsortIdx l = List.range l.length := by
  rw [argsortIdx, sortPairs_of_pairwise (pairwise_vlt_enum h)]
  exact List.enum_map_fst l

theorem interpData_oneD (xs D T : List Val) (perm : List Nat) (m0 : Nat)
    (hxD : xs.length = D.length) (hperm : perm = List.range D.length) :
    interpData xs perm [m0] D 0 T
      = T.map (fun t => if isOOB xs t then none else interpPoint xs D t) := by
  subst hperm
  have hcomp : (List.range T.length).map
      (fun p => if isOOB xs (T.getD p none) then none
                else interpPoint xs D (T.getD p none))
      = T.map (fun t => if isOOB xs t then none else interpPoint xs D t) := by
    have h1 : (fun p => if isOOB xs (T.getD p none) then none
                else interpPoint xs D (T.getD p none))
        = (fun t => if isOOB xs t then none else interpPoint xs D t)
            ∘ (fun p => T.getD p none) := rfl
    rw [h1, ← List.map_map, map_getD_range_eq]
  rw [interpData]
  rw [show ([m0].set 0 T.length) = [T.length] from rfl]
  rw [show listProd [T.length] = T.length from by simp [listProd]]
  refine Eq.trans (List.map_congr_left ?_) hcomp
  intro p hp
  show (if isOOB xs (T.getD ((unflatten [T.length] p).getD 0 0) none) then none
        else interpPoint xs ((List.range xs.length).map (fun m =>
          D.getD (flatIndex [m0] ((unflatten [T.length] p).set 0
            ((List.range D.length).getD m 0))) none))
          (T.getD ((unflatten [T.length] p).getD 0 0) none))
      = (if isOOB xs (T.getD p none) then none
         else interpPoint xs D (T.getD p none))
  have hidx : unflatten [T.length] p = [p] := by
    simp [unflatten, listProd]
  rw [hidx]
  rw [show ([p] : List Nat).getD 0 0 = p from rfl]
  congr 1
  have hcong : ∀ m ∈ List.range xs.length,
      D.getD (flatIndex [m0] (([p] : List Nat).set 0
        ((List.range D.length).getD m 0))) none
      = D.getD m none := by
    intro m hm
    have hm2 : m < D.length := hxD ▸ List.mem_range.mp hm
    have hr : (List.range D.length).getD m 0 = m := by
      rw [List.getD_eq_getElem _ _ (by simpa using hm2)]
      simp
    rw [hr]
    rw [show flatIndex [m0] (([p] : List Nat).set 0 m) = m from by
      simp [flatIndex, listProd]]
  rw [List.map_congr_left hcong, hxD, map_getD_range_eq]

theorem sorted_gather {l : List Val}
    (hpw : List.Pairwise (fun a b => vlt a b = true) l) :
    (argsortIdx l).map (fun m => l.getD m none) = l := by
  rw [argsortIdx_of_pairwise hpw]
  exact map_getD_range_eq l

theorem reinterp_id {XS D : List Val}
    (hpw : List.Pairwise (fun a b => vlt a b = true) XS)
    (hsome : ∀ v ∈ XS, v.isSome)
    (hd : ∀ v ∈ D, v.isSome)
    (hlen : D.length = XS.length) (h2 : 2 ≤ XS.length) :
    XS.map (fun t => if isOOB XS t then none else interpPoint XS D t) = D := by
  suffices h : ∀ g : Val → Val,
      (∀ k, k < XS.length → g (XS.getD k none) = D.getD k none) →
      XS.map g = D by
    apply h
    intro k hk
    show (if isOOB XS (XS.getD k none) then none
          else interpPoint XS D (XS.getD k none)) = D.getD k none
    rw [isOOB_node_false hpw hk]
    simp only [Bool.false_eq_true, if_false]
    exact interpPoint_node hpw hsome hd hlen h2 hk
  intro g hg
  apply List.ext_getElem
  · rw [List.length_map]
    omega
  · intro i h1 h2'
    rw [List.getElem_map]
    have hi : i < XS.length := by simpa using h1
    have hgd : XS.getD i none = XS[i] := List.getD_eq_getElem XS none hi
    have hdd : D.getD i none = D[i] := List.getD_eq_getElem D none h2'
    rw [← hgd, hg i hi, hdd]

theorem getD_map_some {l : List ℚ} {i : Nat} (hi : i < l.length) :
    (l.map some).getD i none = some (l.getD i 0) := by
  rw [List.getD_eq_getElem _ _ (by simpa using hi),
    List.getD_eq_getElem _ _ hi, List.getElem_map]

theorem isOOB_inrange {xs : List ℚ} {q : ℚ} (hn : 1 ≤ xs.length)
    (hlo : xs.getD 0 0 ≤ q) (hhi : q ≤ xs.getD (xs.length - 1) 0) :
    isOOB (xs.map some) (some q) = false := by
  rw [isOOB, headD_eq_getD, getLastD_eq_getD]
  rw [getD_map_some (show 0 < xs.length by omega)]
  rw [show (xs.map some).length - 1 = xs.length - 1 by simp]
  rw [getD_map_some (show xs.length - 1 < xs.length by omega)]
  have h1 : vlt (some q) (some (xs.getD 0 0)) = false := by
    simp only [vlt, decide_eq_false_iff_not, not_lt]
    exact hlo
  have h2 : vlt (some (xs.getD (xs.length - 1) 0)) (some q) = false := by
    simp only [vlt, decide_eq_false_iff_not, not_lt]
    exact hhi
  rw [h1, h2]
  rfl

/-! ## Symbolic execution of the two interpolation runs on a profile -/

theorem profile_run1 (xs ys ts : List ℚ)
    (hylen : ys.length = xs.length) (h2 : 2 ≤ xs.length) :
    interp_coordinate (profileDS xs ys) "pressure" (ts.map some) true "_i"
      false = Except.ok (profileDS1 xs ys ts) := by
  have hgv1 : (profileDS xs ys).getVar "temp"
      = Except.ok (profileYAtt xs ys) := rfl
  have hc : "pressure" ∈ (profileYAtt xs ys).dims := by
    show "pressure" ∈ ["pressure"]
    simp
  have h11 : (profileXAtt xs).dims.length = 1 := rfl
  have h12 : (profileYAtt xs ys).shape.getD
      (get_axis_num (profileYAtt xs ys).dims "pressure") 0
      = (profileXAtt xs).data.length := by
    show ys.length = (xs.map some).length
    rw [List.length_map]
    exact hylen
  have h13 : 2 ≤ (profileXAtt xs).data.length := by
    show 2 ≤ (xs.map some).length
    rw [List.length_map]
    exact h2
  have hco : coordsFor "pressure_i" (ts.map some) (profileYAtt xs ys).coords
      ((profileYAtt xs ys).dims.set
        (get_axis_num (profileYAtt xs ys).dims "pressure") "pressure_i")
      = Except.ok [("pressure_i", ts.map some)] := rfl
  have hstep := @interpStep_affected (profileXAtt xs) "pressure" "pressure_i"
    (ts.map some) "_i" (profileDS xs ys) "temp" (profileYAtt xs ys)
    [("pressure_i", ts.map some)] hgv1 hc h11 h12 h13 hco
  have hstep2 : interpStep (profileXAtt xs) "pressure" "pressure_i"
      (ts.map some) true "_i" false (profileDS xs ys) "temp"
      = Except.ok ⟨[("pressure", ⟨["pressure"], [xs.length], xs.map some,
          [], []⟩), ("pressure_i", mkDimCoord "pressure_i" (ts.map some))],
        [("temp_i", profileDA1 xs ys ts)], []⟩ := hstep.trans rfl
  have hloop : interpLoop (profileXAtt xs) "pressure" "pressure_i"
      (ts.map some) true "_i" false (profileDS xs ys) ["temp"]
      = Except.ok ⟨[("pressure", ⟨["pressure"], [xs.length], xs.map some,
          [], []⟩), ("pressure_i", mkDimCoord "pressure_i" (ts.map some))],
        [("temp_i", profileDA1 xs ys ts)], []⟩ := by
    rw [interpLoop_cons_ok hstep2]
    rfl
  have hfin : interp_coordinate (profileDS xs ys) "pressure" (ts.map some)
      true "_i" false
      = (match interpLoop (profileXAtt xs) "pressure" "pressure_i"
          (ts.map some) true "_i" false (profileDS xs ys) ["temp"] with
        | Except.error e => Except.error e
        | Except.ok ds2 => ds2.dropVar "pressure") := rfl
  rw [hfin, hloop]
  rfl

theorem profile_run2 (xs ys ts : List ℚ) (hts2 : 2 ≤ ts.length) :
    interp_coordinate (profileDS1 xs ys ts) "pressure_i" (ts.map some) true
      "_i" false = Except.ok (profileDS2 xs ys ts) := by
  have hgv2 : (profileDS1 xs ys ts).getVar "temp_i"
      = Except.ok (profileDA1 xs ys ts) := rfl
  have hc : "pressure_i" ∈ (profileDA1 xs ys ts).dims := by
    show "pressure_i" ∈ ["pressure_i"]
    simp
  have h11 : (profileX2Att ts).dims.length = 1 := rfl
  have h12 : (profileDA1 xs ys ts).shape.getD
      (get_axis_num (profileDA1 xs ys ts).dims "pressure_i") 0
      = (profileX2Att ts).data.length := rfl
  have h13 : 2 ≤ (profileX2Att ts).data.length := by
    show 2 ≤ (ts.map some).length
    rw [List.length_map]
    exact hts2
  have hco : coordsFor "pressure_i_i" (ts.map some)
      (profileDA1 xs ys ts).coords
      ((profileDA1 xs ys ts).dims.set
        (get_axis_num (profileDA1 xs ys ts).dims "pressure_i") "pressure_i_i")
      = Except.ok [("pressure_i_i", ts.map some)] := rfl
  have hstep := @interpStep_affected (profileX2Att ts) "pressure_i"
    "pressure_i_i" (ts.map some) "_i" (profileDS1 xs ys ts) "temp_i"
    (profileDA1 xs ys ts) [("pressure_i_i", ts.map some)]
    hgv2 hc h11 h12 h13 hco
  have hstep2 : interpStep (profileX2Att ts) "pressure_i" "pressure_i_i"
      (ts.map some) true "_i" false (profileDS1 xs ys ts) "temp_i"
      = Except.ok ⟨[("pressure_i", mkDimCoord "pressure_i" (ts.map some)),
          ("pressure_i_i", mkDimCoord "pressure_i_i" (ts.map some))],
        [("temp_i_i", profileDA2 xs ys ts)], []⟩ := hstep.trans rfl
  have hloop : interpLoop (profileX2Att ts) "pressure_i" "pressure_i_i"
      (ts.map some) true "_i" false (profileDS1 xs ys ts) ["temp_i"]
      = Except.ok ⟨[("pressure_i", mkDimCoord "pressure_i" (ts.map some)),
          ("pressure_i_i", mkDimCoord "pressure_i_i" (ts.map some))],
        [("temp_i_i", profileDA2 xs ys ts)], []⟩ := by
    rw [interpLoop_cons_ok hstep2]
    rfl
  have hfin : interp_coordinate (profileDS1 xs ys ts) "pressure_i"
      (ts.map some) true "_i" false
      = (match interpLoop (profileX2Att ts) "pressure_i" "pressure_i_i"
          (ts.map some) true "_i" false (profileDS1 xs ys ts) ["temp_i"] with
        | Except.error e => Except.error e
        | Except.ok ds2 => ds2.dropVar "pressure_i") := rfl
  rw [hfin, hloop]
  rfl

theorem profile_values (xs ys ts : List ℚ)
    (hylen : ys.length = xs.length) (h2 : 2 ≤ xs.length)
    (hts2 : 2 ≤ ts.length)
    (hxs : List.Pairwise (fun a b : ℚ => a < b) xs)
    (hts : List.Pairwise (fun a b : ℚ => a < b) ts)
    (hrange : ∀ q ∈ ts, xs.getD 0 0 ≤ q ∧ q ≤ xs.getD (xs.length - 1) 0) :
    profileData2 xs ys ts = profileData1 xs ys ts ∧
    (profileData1 xs ys ts).length = ts.length := by
  have hpwX : List.Pairwise (fun a b => vlt a b = true) (xs.map some) := by
    rw [List.pairwise_map]
    exact hxs.imp (fun hab => by
      simp only [vlt, decide_eq_true_eq]
      exact hab)
  have hpwT : List.Pairwise (fun a b => vlt a b = true) (ts.map some) := by
    rw [List.pairwise_map]
    exact hts.imp (fun hab => by
      simp only [vlt, decide_eq_true_eq]
      exact hab)
  have hsomeX : ∀ v ∈ xs.map some, v.isSome := by
    intro v hv
    obtain ⟨q, hq, rfl⟩ := List.mem_map.mp hv
    rfl
  have hsomeY : ∀ v ∈ ys.map some, v.isSome := by
    intro v hv
    obtain ⟨q, hq, rfl⟩ := List.mem_map.mp hv
    rfl
  have hsomeT : ∀ v ∈ ts.map some, v.isSome := by
    intro v hv
    obtain ⟨q, hq, rfl⟩ := List.mem_map.mp hv
    rfl
  have hX : (argsortIdx (xs.map some)).map (fun m => (xs.map some).getD m none)
      = xs.map some := sorted_gather hpwX
  have hpermX : argsortIdx (xs.map some) = List.range (ys.map some).length := by
    rw [argsortIdx_of_pairwise hpwX]
    simp [hylen]
  have hd1 : profileData1 xs ys ts
      = (ts.map some).map (fun t => if isOOB (xs.map some) t then none
          else interpPoint (xs.map some) (ys.map some) t) := by
    rw [profileData1, hX]
    exact interpData_oneD (xs.map some) (ys.map some) (ts.map some)
      (argsortIdx (xs.map some)) ys.length (by simp [hylen]) hpermX
  have hd1len : (profileData1 xs ys ts).length = ts.length := by
    rw [hd1]
    simp
  have hd1some : ∀ v ∈ profileData1 xs ys ts, v.isSome := by
    rw [hd1]
    intro v hv
    obtain ⟨t, ht, rfl⟩ := List.mem_map.mp hv
    obtain ⟨q, hq, rfl⟩ := List.mem_map.mp ht
    rw [isOOB_inrange (by omega) (hrange q hq).1 (hrange q hq).2]
    simp only [Bool.false_eq_true, if_false]
    exact interpPoint_isSome hpwX hsomeX hsomeY (by simp [hylen])
      (by simpa using h2)
  have hT : (argsortIdx (ts.map some)).map (fun m => (ts.map some).getD m none)
      = ts.map some := sorted_gather hpwT
  have hpermT : argsortIdx (ts.map some)
      = List.range (profileData1 xs ys ts).length := by
    rw [argsortIdx_of_pairwise hpwT, hd1len]
    simp
  have hd2 : profileData2 xs ys ts
      = (ts.map some).map (fun t => if isOOB (ts.map some) t then none
          else interpPoint (ts.map some) (profileData1 xs ys ts) t) := by
    rw [profileData2, hT]
    exact interpData_oneD (ts.map some) (profileData1 xs ys ts) (ts.map some)
      (argsortIdx (ts.map some)) ((ts.map some).length)
      (by rw [List.length_map, hd1len]) hpermT
  refine ⟨?_, hd1len⟩
  rw [hd2]
  exact reinterp_id hpwT hsomeT hd1some (by rw [hd1len, List.length_map])
    (by simpa using hts2)

/-- C8 (amended): re-running the interpolator on its own output with the
*original* coordinate name raises a lookup error (`C8_counterexample`),
because the original coordinate was dropped; but re-running it along the
*suffixed* coordinate with the same target values is idempotent on the
data: for a profile with strictly increasing source nodes (at least two)
and strictly increasing in-range targets (at least two), the first run
returns `temp_i` and the second run returns `temp_i_i` with exactly the
same interpolated values, in exact arithmetic. -/
theorem C8_reinterpolation_identity (xs ys ts : List ℚ)
    (hylen : ys.length = xs.length) (h2 : 2 ≤ xs.length)
    (hts2 : 2 ≤ ts.length)
    (hxs : List.Pairwise (fun a b : ℚ => a < b) xs)
    (hts : List.Pairwise (fun a b : ℚ => a < b) ts)
    (hrange : ∀ q ∈ ts, xs.getD 0 0 ≤ q ∧ q ≤ xs.getD (xs.length - 1) 0) :
    interp_coordinate (profileDS xs ys) "pressure" (ts.map some) true "_i"
        false = Except.ok (profileDS1 xs ys ts) ∧
    (profileDS1 xs ys ts).getRaw "temp_i" = some (profileDA1 xs ys ts) ∧
    interp_coordinate (profileDS1 xs ys ts) "pressure_i" (ts.map some) true
        "_i" false = Except.ok (profileDS2 xs ys ts) ∧
    (profileDS2 xs ys ts).getRaw "temp_i_i" = some (profileDA2 xs ys ts) ∧
    (profileDA2 xs ys ts).data = (profileDA1 xs ys ts).data ∧
    (profileDA1 xs ys ts).data.length = ts.length :=
  ⟨profile_run1 xs ys ts hylen h2, rfl,
   profile_run2 xs ys ts hts2, rfl,
   (profile_values xs ys ts hylen h2 hts2 hxs hts hrange).1,
   (profile_values xs ys ts hylen h2 hts2 hxs hts hrange).2⟩

/-- Witness for C8: the amended theorem applied to the concrete profile
`pressure = [0, 10]`, `temp = [1, 2]`, targets `[1, 9]`. -/
theorem C8_witness :
    ((2 : Nat) ≤ [(0 : ℚ), 10].length ∧
      List.Pairwise (fun a b : ℚ => a < b) [(0 : ℚ), 10] ∧
      List.Pairwise (fun a b : ℚ => a < b) [(1 : ℚ), 9] ∧
      (∀ q ∈ [(1 : ℚ), 9], [(0 : ℚ), 10].getD 0 0 ≤ q ∧
        q ≤ [(0 : ℚ), 10].getD ([(0 : ℚ), 10].length - 1) 0)) ∧
    (interp_coordinate (profileDS [0, 10] [1, 2]) "pressure"
        ([(1 : ℚ), 9].map some) true "_i" false
      = Except.ok (profileDS1 [0, 10] [1, 2] [1, 9]) ∧
    (profileDS1 [0, 10] [1, 2] [1, 9]).getRaw "temp_i"
      = some (profileDA1 [0, 10] [1, 2] [1, 9]) ∧
    interp_coordinate (profileDS1 [0, 10] [1, 2] [1, 9]) "pressure_i"
        ([(1 : ℚ), 9].map some) true "_i" false
      = Except.ok (profileDS2 [0, 10] [1, 2] [1, 9]) ∧
    (profileDS2 [0, 10] [1, 2] [1, 9]).getRaw "temp_i_i"
      = some (profileDA2 [0, 10] [1, 2] [1, 9]) ∧
    (profileDA2 [0, 10] [1, 2] [1, 9]).data
      = (profileDA1 [0, 10] [1, 2] [1, 9]).data ∧
    (profileDA1 [0, 10] [1, 2] [1, 9]).data.length
      = [(1 : ℚ), 9].length) :=
  ⟨⟨by decide, by decide, by decide, by decide⟩,
   C8_reinterpolation_identity [0, 10] [1, 2] [1, 9] rfl (by decide)
     (by decide) (by decide) (by decide) (by decide)⟩
